import Mathlib

/-!
# Client workflow of the legal document analysis UI (`frontend/src/App.js`)

A shallow embedding of the `App` component's state and event handlers.

* The fourteen `useState` cells of `App` form the record `AppState`.
* A handler is a function on `AppState` that also returns the effects it
  performs (alerts, network requests, exported files).  A handler that awaits
  `fetch` is split at the `await` into a synchronous part (`...Start`) and the
  continuation that runs once the request has settled (`...Finish`).
* `localStorage` is only ever accessed under `CHAT_STORAGE_KEY`; it is modelled
  by the content of that one slot (`Option String`, `none` = key absent).
* Text is `String`, a sequence of Unicode code points (a JavaScript string
  holding an unpaired surrogate has no counterpart).  Values produced by
  `JSON.parse` / `res.json()` are `JsVal`.
* Calls of `console.error` and of `preventDefault` / `stopPropagation` change
  no state and are left out.
* Rendering is modelled where the component's own code can throw while
  building the tree (a property read on `null`, a method call on a value that
  lacks the method).  There is no error boundary, so a render that throws
  unmounts the component tree.  What React and `ReactMarkdown` do with the
  values they are handed is not modelled.
* Host built-ins whose behaviour is fixed by the platform rather than by this
  repository (`JSON.parse`, `JSON.stringify`, `String.prototype.toUpperCase`
  and `toLowerCase`, number formatting and comparison, the text of a
  `TypeError`) are the fields of `Platform`.
-/

namespace LegalUI

/-! ## JavaScript values -/

/-- Number values.  The program never does arithmetic on a number it received;
it only stores it, tests it for truthiness or prints it. -/
inductive JsNum where
  | finite (q : Rat)
  | negZero
  | posInf
  | negInf
  | nan

/-- Truthiness of a number: `0`, `-0` and `NaN` are falsy. -/
def JsNum.truthy : JsNum → Bool
  | .finite q => decide (q ≠ 0)
  | .negZero => false
  | .posInf => true
  | .negInf => true
  | .nan => false

/-- The values a response body, a parsed storage entry or a property read can
be: `undefined`, `null`, booleans, numbers, strings, arrays and plain objects
(own properties in insertion order, keys pairwise distinct). -/
inductive JsVal where
  | undefined
  | null
  | bool (b : Bool)
  | num (x : JsNum)
  | str (s : String)
  | arr (xs : List JsVal)
  | obj (fields : List (String × JsVal))

/-- A thrown `Error` (or rejected promise reason), observed through `.message`. -/
structure JsError where
  message : String

namespace JsVal

/-- Truthiness, as used by `||`, `&&`, `!` and `if`. -/
def truthy : JsVal → Bool
  | undefined => false
  | null => false
  | bool b => b
  | num x => x.truthy
  | str s => s != ""
  | arr _ => true
  | obj _ => true

/-- The operator `a || b`. -/
def or (a b : JsVal) : JsVal := if a.truthy then a else b

/-- The test `Array.isArray(v)`. -/
def isArray : JsVal → Bool
  | arr _ => true
  | _ => false

/-- Length of a string in UTF-16 code units (`s.length`). -/
def utf16Length (s : String) : Nat :=
  (s.data.map (fun c => if c.toNat < 65536 then 1 else 2)).sum

/-- Own property lookup in a plain object. -/
def lookupField (k : String) : List (String × JsVal) → JsVal
  | [] => undefined
  | (k', v) :: rest => if k' = k then v else lookupField k rest

/-- The property read `v.k` on a value that is neither `null` nor `undefined`,
for the property names this program reads (`length` and data fields; none of
them is an array index or an inherited method). -/
def get (v : JsVal) (k : String) : JsVal :=
  match v with
  | obj fields => lookupField k fields
  | arr xs => if k = "length" then num (.finite xs.length) else undefined
  | str s => if k = "length" then num (.finite (utf16Length s)) else undefined
  | _ => undefined

/-- The test `v == null` (true of `null` and `undefined`). -/
def nullish : JsVal → Bool
  | undefined => true
  | null => true
  | _ => false

end JsVal

/-! ## Platform built-ins -/

/-- The host functions the component calls. -/
structure Platform where
  /-- The call `JSON.parse(text)`; `.error` is the thrown `SyntaxError`. -/
  jsonParse : String → Except JsError JsVal
  /-- The call `JSON.stringify(v)` for an array or plain object `v`. -/
  jsonStringify : JsVal → String
  /-- The method `String.prototype.toUpperCase`. -/
  toUpperCase : String → String
  /-- The method `String.prototype.toLowerCase`. -/
  toLowerCase : String → String
  /-- The comparison `v > 0` for a string, an array or an object `v` (which
  goes through the conversion of `v` to a number). -/
  greaterThanZero : JsVal → Bool
  /-- Conversion of a number to text (`Number::toString`). -/
  numberToString : JsNum → String
  /-- Message of the `TypeError` raised when the property or method `k` cannot
  be used: reading `k` of `null` or `undefined`, calling a `k` that is not a
  function, converting an object that has no usable `k`. -/
  typeErrorMessage : String → String

/-- The property read `v.k`, which throws on `null` and `undefined`. -/
def Platform.getProp (P : Platform) (v : JsVal) (k : String) : Except JsError JsVal :=
  if v.nullish then .error ⟨P.typeErrorMessage k⟩ else .ok (v.get k)

/-! ## Strings -/

/-- Code points removed by `String.prototype.trim`: ECMAScript `WhiteSpace`
and `LineTerminator`. -/
def isJsWhiteSpace (c : Char) : Bool :=
  let n := c.toNat
  n = 0x09 || n = 0x0A || n = 0x0B || n = 0x0C || n = 0x0D || n = 0x20 || n = 0xA0
    || n = 0x1680 || (0x2000 ≤ n && n ≤ 0x200A) || n = 0x2028 || n = 0x2029
    || n = 0x202F || n = 0x205F || n = 0x3000 || n = 0xFEFF

/-- The method `String.prototype.trim` on the list of code points. -/
def trimChars (l : List Char) : List Char :=
  ((l.dropWhile isJsWhiteSpace).reverse.dropWhile isJsWhiteSpace).reverse

/-- The method `String.prototype.trim`. -/
def jsTrim (s : String) : String := ⟨trimChars s.data⟩

/-- A text is blank when it is empty or consists of white space only. -/
def isBlank (s : String) : Prop := ∀ c ∈ s.data, isJsWhiteSpace c = true

instance isBlankDecidable (s : String) : Decidable (isBlank s) :=
  inferInstanceAs (Decidable (∀ c ∈ s.data, isJsWhiteSpace c = true))

/-! ## Component state -/

/-- A `File` handed over by the picker or a drop: name, byte size and a handle
on the binary content. -/
structure JsFile where
  name : String
  size : Nat
  handle : Nat
  deriving DecidableEq, Repr

/-- The `formData` record. -/
structure CaseMetadata where
  matterOverview : String := ""
  peopleAndAliases : String := ""
  noteworthyOrganizations : String := ""
  noteworthyTerms : String := ""
  additionalContext : String := ""
  deriving DecidableEq, Repr

/-- The object `formData` as a value, for `JSON.stringify(formData)`. -/
def CaseMetadata.toJsVal (m : CaseMetadata) : JsVal :=
  .obj [("matterOverview", .str m.matterOverview),
        ("peopleAndAliases", .str m.peopleAndAliases),
        ("noteworthyOrganizations", .str m.noteworthyOrganizations),
        ("noteworthyTerms", .str m.noteworthyTerms),
        ("additionalContext", .str m.additionalContext)]

/-- The object stored by `setRelevanceResults`. -/
structure RelevanceResults where
  highlyRelevant : JsVal
  partiallyRelevant : JsVal
  lessRelevant : JsVal
  notRelevant : JsVal
  failed : JsVal

/-- The `useState` cells of `App`, with their initial values. -/
structure AppState where
  uploadedFiles : List JsFile := []
  isDragging : Bool := false
  isLoading : Bool := false
  errorMsg : Option String := none
  formData : CaseMetadata := {}
  result : JsVal := .null
  relevanceResults : Option RelevanceResults := none
  isRelevanceLoading : Bool := false
  relevanceError : Option String := none
  expandedFiles : List (String × Bool) := []
  askQuestion : String := ""
  qaMessages : List JsVal := []
  isAskLoading : Bool := false
  qaError : Option String := none

/-! ## Document staging -/

/-- The constant `maxSize = 100 * 1024 * 1024` of `addFiles`. -/
def maxSize : Nat := 100 * 1024 * 1024

/-- The text passed to `alert` for an oversized file. -/
def oversizeAlert (file : JsFile) : String :=
  "File \"" ++ file.name ++ "\" exceeds 100MB."

/-- The handler `addFiles`: the new state and the alerts raised, in order. -/
def addFiles (s : AppState) (files : List JsFile) : AppState × List String :=
  let valid := files.filter (fun file => !decide (file.size > maxSize))
  let alerts := (files.filter (fun file => decide (file.size > maxSize))).map oversizeAlert
  ({ s with uploadedFiles := s.uploadedFiles ++ valid }, alerts)

/-! ## Network -/

/-- The constant `API_BASE`. -/
def API_BASE : String := "http://127.0.0.1:8001"

/-- An entry of a `FormData` body, as added by `fd.append(name, value)`. -/
inductive FormPart where
  | file (name : String) (file : JsFile)
  | text (name : String) (value : String)

/-- The `body` option of a `fetch` call. -/
inductive RequestBody where
  | form (parts : List FormPart)
  | text (payload : String)

/-- A call of `fetch(url, options)`. -/
structure Request where
  url : String
  method : String
  headers : List (String × String) := []
  body : RequestBody

/-- A `Response`: its status code and what reading its body yields (reading
can fail when the connection breaks). -/
structure Response where
  status : Nat
  body : Except JsError String

/-- The flag `res.ok`: the status is in the range 200 to 299. -/
def Response.ok (res : Response) : Bool := decide (200 ≤ res.status ∧ res.status ≤ 299)

/-- The call `await res.text()`. -/
def Response.text (res : Response) : Except JsError String := res.body

/-- The call `await res.json()`: the body text run through `JSON.parse`. -/
def Response.json (P : Platform) (res : Response) : Except JsError JsVal :=
  match res.body with
  | .error e => .error e
  | .ok t => P.jsonParse t

/-- How an awaited `fetch` settles: the promise rejects (transport failure) or
resolves with a response. -/
inductive FetchOutcome where
  | rejected (err : JsError)
  | resolved (res : Response)

/-- The expression `a || b` on two strings. -/
def strOr (a b : String) : String := if a != "" then a else b

/-! ## Case analysis -/

/-- The part of `handleSubmit` that runs before `await fetch(...)`: the new
state and the request issued, if any. -/
def handleSubmitStart (P : Platform) (s : AppState) : AppState × Option Request :=
  let s0 := { s with errorMsg := none }
  if s0.uploadedFiles.length = 0 then
    ({ s0 with errorMsg := some "Please upload at least one document." }, none)
  else if !(JsVal.str (jsTrim s0.formData.matterOverview)).truthy then
    ({ s0 with errorMsg := some "Case Summary is required." }, none)
  else
    let fd := s0.uploadedFiles.map (FormPart.file "files")
      ++ [FormPart.text "metadata" (P.jsonStringify s0.formData.toJsVal)]
    ({ s0 with isLoading := true, result := .null },
     some { url := API_BASE ++ "/api/analyze-case", method := "POST", body := .form fd })

/-- The part of `handleSubmit` that runs once `fetch` has settled (the rest of
the `try`, the `catch` and the `finally`), applied to the state at that time. -/
def handleSubmitFinish (P : Platform) (s : AppState) (o : FetchOutcome) : AppState :=
  let s1 : AppState :=
    match o with
    | .rejected _ => { s with errorMsg := some "Error analyzing case." }
    | .resolved res =>
      if !res.ok then
        match res.text with
        | .error _ => { s with errorMsg := some "Error analyzing case." }
        | .ok _ =>
          { s with errorMsg := some ("Error analyzing case (status " ++ toString res.status ++ ").") }
      else
        match res.json P with
        | .error _ => { s with errorMsg := some "Error analyzing case." }
        | .ok data => { s with result := data }
  { s1 with isLoading := false }

/-- The handler `handleSubmit` run to completion with no other event in
between: the final state and the requests issued. -/
def handleSubmit (P : Platform) (s : AppState) (o : FetchOutcome) : AppState × List Request :=
  match handleSubmitStart P s with
  | (s1, none) => (s1, [])
  | (s1, some req) => (handleSubmitFinish P s1 o, [req])

/-- The value of the heading expression `result.issues?.length || 0` in
`Issues (...)`; `none` when `result` is falsy and the block
`result && (...)` is skipped. -/
def displayedIssueCount (result : JsVal) : Option JsVal :=
  if result.truthy then
    let issues := result.get "issues"
    let len := if issues.nullish then JsVal.undefined else issues.get "length"
    some (len.or (.num (.finite 0)))
  else none

/-! ## Conversation -/

/-- The object `{ role: "user", content: question }`. -/
def userMessage (question : String) : JsVal :=
  .obj [("role", .str "user"), ("content", .str question)]

/-- The object `{ role: "assistant", content }`. -/
def assistantMessage (content : JsVal) : JsVal :=
  .obj [("role", .str "assistant"), ("content", content)]

/-- The expression
`typeof data === "string" ? data : data.answer || data.analysis || ""`. -/
def replyContent (P : Platform) (data : JsVal) : Except JsError JsVal :=
  match data with
  | .str s => .ok (.str s)
  | _ =>
    match P.getProp data "answer" with
    | .error e => .error e
    | .ok answer =>
      if answer.truthy then .ok (answer.or (.str ""))
      else
        match P.getProp data "analysis" with
        | .error e => .error e
        | .ok analysis => .ok (analysis.or (.str ""))

/-- The part of `handleAskQuestion` that runs before `await fetch(...)`. -/
def handleAskQuestionStart (P : Platform) (s : AppState) : AppState × Option Request :=
  let question := jsTrim s.askQuestion
  if !(JsVal.str question).truthy then (s, none)
  else
    let newHistory := s.qaMessages ++ [userMessage question]
    ({ s with qaMessages := newHistory, askQuestion := "", isAskLoading := true, qaError := none },
     some { url := API_BASE ++ "/api/ask", method := "POST",
            headers := [("Content-Type", "application/json")],
            body := .text (P.jsonStringify
              (.obj [("question", .str question), ("history", .arr newHistory)])) })

/-- What the `try` block of `handleAskQuestion` computes after the `await`:
the content of the assistant message, or the error that reaches `catch`. -/
def askReply (P : Platform) (o : FetchOutcome) : Except JsError JsVal :=
  match o with
  | .rejected e => .error e
  | .resolved res =>
    if !res.ok then
      match res.text with
      | .error e => .error e
      | .ok text =>
        .error ⟨strOr text ("Failed to get answer (status " ++ toString res.status ++ ").")⟩
    else
      match res.json P with
      | .error e => .error e
      | .ok data => replyContent P data

/-- The part of `handleAskQuestion` that runs once `fetch` has settled,
applied to the state at that time. -/
def handleAskQuestionFinish (P : Platform) (s : AppState) (o : FetchOutcome) : AppState :=
  let s1 : AppState :=
    match askReply P o with
    | .ok content => { s with qaMessages := s.qaMessages ++ [assistantMessage content] }
    | .error err =>
      { s with qaError := some (strOr err.message "Something went wrong while asking the question.") }
  { s1 with isAskLoading := false }

/-- The handler `handleAskQuestion` run to completion with no other event in
between: the final state and the requests issued. -/
def handleAskQuestion (P : Platform) (s : AppState) (o : FetchOutcome) : AppState × List Request :=
  match handleAskQuestionStart P s with
  | (s1, none) => (s1, [])
  | (s1, some req) => (handleAskQuestionFinish P s1 o, [req])

/-! ## Chat persistence -/

/-- The component state together with the `localStorage` slot stored under
`CHAT_STORAGE_KEY` (`none`: the key is absent). -/
structure World where
  state : AppState
  storage : Option String

/-- The constant `CHAT_STORAGE_KEY`. -/
def CHAT_STORAGE_KEY : String := "legal_assistant_chat_v1"

/-- The function `safeJsonParse`. -/
def safeJsonParse (P : Platform) (str : String) (fallback : JsVal) : JsVal :=
  match P.jsonParse str with
  | .ok v => v
  | .error _ => fallback

/-- The restore effect (`useEffect(..., [])`): the argument it passes to
`setQaMessages`, or `none` when it does not call it. -/
def restoredHistory (P : Platform) (stored : Option String) : Option (List JsVal) :=
  match stored with
  | none => none
  | some saved =>
    if (JsVal.str saved).truthy then
      match safeJsonParse P saved (.arr []) with
      | .arr parsed => some parsed
      | _ => none
    else none

/-- The auto-save effect (`useEffect(..., [qaMessages])`): it runs after every
render in which `qaMessages` is a new array, and after the first render. -/
def autoSave (P : Platform) (w : World) : World :=
  { w with storage := some (P.jsonStringify (.arr w.state.qaMessages)) }

/-- One iteration of `qaMessages.map((msg, idx) => ...)` in the render: the
reads `msg.role` and `msg.content` throw when `msg` is `null` or `undefined`.
(What `ReactMarkdown` does with the content is the library's business.) -/
def renderChatMessage (P : Platform) (msg : JsVal) : Except JsError Unit :=
  match P.getProp msg "role" with
  | .error e => .error e
  | .ok _ =>
    match P.getProp msg "content" with
    | .error e => .error e
    | .ok _ => .ok ()

/-- The render of the message list: the first error thrown, if any. -/
def renderChatMessages (P : Platform) : List JsVal → Except JsError Unit
  | [] => .ok ()
  | msg :: rest =>
    match renderChatMessage P msg with
    | .error e => .error e
    | .ok _ => renderChatMessages P rest

/-- How a page load ends: the component is running in some world, or a render
threw and React unmounted the component tree (there is no error boundary),
leaving only the storage slot. -/
inductive PageLoad where
  | running (w : World)
  | unmounted (err : JsError) (storage : Option String)

/-- Page load.  The first render shows the initial state; then the restore
effect reads the slot and the auto-save effect of that render writes the
(empty) initial history.  If the restore effect called `setQaMessages`, the
component renders again with the restored history: when that render throws,
the tree is unmounted and no further effect runs; otherwise the auto-save
effect writes the restored history. -/
def startup (P : Platform) (stored : Option String) : PageLoad :=
  let first : World := autoSave P { state := {}, storage := stored }
  match restoredHistory P stored with
  | none => .running first
  | some parsed =>
    match renderChatMessages P parsed with
    | .error err => .unmounted err first.storage
    | .ok _ =>
      .running (autoSave P { first with state := { first.state with qaMessages := parsed } })

/-- The handler `handleClearAskSession` itself, before the component renders
again. -/
def handleClearAskSession (w : World) : World :=
  { state := { w.state with askQuestion := "", qaMessages := [], qaError := none },
    storage := none }

/-- The handler `handleClearAskSession` followed by the render it triggers:
`setQaMessages([])` installs a new array, so the auto-save effect runs. -/
def clearSession (P : Platform) (w : World) : World :=
  autoSave P (handleClearAskSession w)

/-! ## Transcript export -/

mutual
/-- The conversion `String(v)` (abstract operation `ToString`). -/
def jsToString (P : Platform) : JsVal → Except JsError String
  | .undefined => .ok "undefined"
  | .null => .ok "null"
  | .bool b => .ok (if b then "true" else "false")
  | .num x => .ok (P.numberToString x)
  | .str s => .ok s
  | .arr xs => jsJoin P "," xs
  | .obj fields =>
    if fields.any (fun kv => kv.1 = "toString") then .error ⟨P.typeErrorMessage "toString"⟩
    else .ok "[object Object]"
/-- The method `Array.prototype.join(sep)`. -/
def jsJoin (P : Platform) (sep : String) : List JsVal → Except JsError String
  | [] => .ok ""
  | [x] => jsJoinElem P x
  | x :: y :: rest =>
    match jsJoinElem P x with
    | .error e => .error e
    | .ok sx =>
      match jsJoin P sep (y :: rest) with
      | .error e => .error e
      | .ok srest => .ok (sx ++ sep ++ srest)
/-- Text of one element inside `join`: empty for `undefined` and `null`. -/
def jsJoinElem (P : Platform) : JsVal → Except JsError String
  | .undefined => .ok ""
  | .null => .ok ""
  | .bool b => .ok (if b then "true" else "false")
  | .num x => .ok (P.numberToString x)
  | .str s => .ok s
  | .arr xs => jsJoin P "," xs
  | .obj fields =>
    if fields.any (fun kv => kv.1 = "toString") then .error ⟨P.typeErrorMessage "toString"⟩
    else .ok "[object Object]"
end

/-- The method call `v.toUpperCase()`: only a string has that method. -/
def callToUpperCase (P : Platform) (v : JsVal) : Except JsError String :=
  match v with
  | .str s => .ok (P.toUpperCase s)
  | _ => .error ⟨P.typeErrorMessage "toUpperCase"⟩

/-- The five lines one iteration of the loop in `toChatTranscript` pushes. -/
def messageLines (P : Platform) (m : JsVal) : Except JsError (List JsVal) :=
  match P.getProp m "role" with
  | .error e => .error e
  | .ok r =>
    match callToUpperCase P (r.or (.str "")) with
    | .error e => .error e
    | .ok role =>
      match P.getProp m "content" with
      | .error e => .error e
      | .ok content =>
        .ok [(JsVal.str role).or (.str "MESSAGE"), content.or (.str ""),
             .str "", .str "----", .str ""]

/-- The loop `for (const m of qaMessages)` of `toChatTranscript`: all lines
pushed, or the first error thrown. -/
def transcriptBody (P : Platform) : List JsVal → Except JsError (List JsVal)
  | [] => .ok []
  | m :: rest =>
    match messageLines P m with
    | .error e => .error e
    | .ok ls =>
      match transcriptBody P rest with
      | .error e => .error e
      | .ok more => .ok (ls ++ more)

/-- The array `lines` of `toChatTranscript` just before the `join`. -/
def transcriptLines (P : Platform) (exportedAt : String) (qaMessages : List JsVal) :
    Except JsError (List JsVal) :=
  match transcriptBody P qaMessages with
  | .error e => .error e
  | .ok body =>
    .ok ([.str ("ExportedAt: " ++ exportedAt), .str "", .str "---- CHAT TRANSCRIPT ----", .str ""]
      ++ body)

/-- The function `toChatTranscript`. -/
def toChatTranscript (P : Platform) (exportedAt : String) (qaMessages : List JsVal) :
    Except JsError String :=
  match transcriptLines P exportedAt qaMessages with
  | .error e => .error e
  | .ok lines => jsJoin P "\n" lines

/-- The argument of `saveTextAsFile`. -/
structure SavedFile where
  filename : String
  text : String

/-- The expression `exportedAt.replace(/[:.]/g, "-")`. -/
def replaceColonDot (t : String) : String :=
  ⟨t.data.map (fun c => if c = ':' ∨ c = '.' then '-' else c)⟩

/-- The handler `handleSaveChats`, given the value of
`new Date().toISOString()`: the world afterwards and the file handed to
`saveTextAsFile` (none when building the transcript throws). -/
def handleSaveChats (P : Platform) (exportedAt : String) (w : World) : World × Option SavedFile :=
  match toChatTranscript P exportedAt w.state.qaMessages with
  | .error _ => (w, none)
  | .ok txt => (w, some { filename := "chats-" ++ replaceColonDot exportedAt ++ ".txt", text := txt })

/-! ## Document staging: picker, drop and removal -/

/-- The handler `handleFileInputChange`; `files` is `e.target.files` (`none`
when it is `null`).  A `FileList` is truthy even when empty. -/
def handleFileInputChange (s : AppState) (files : Option (List JsFile)) :
    AppState × List String :=
  match files with
  | some fs => addFiles s fs
  | none => (s, [])

/-- The handler `handleDrop`; `files` is `e.dataTransfer.files`. -/
def handleDrop (s : AppState) (files : List JsFile) : AppState × List String :=
  let s1 := { s with isDragging := false }
  if files.length ≠ 0 then addFiles s1 files else (s1, [])

/-- The handler `handleDragOver`. -/
def handleDragOver (s : AppState) : AppState := { s with isDragging := true }

/-- The handler `handleDragLeave`. -/
def handleDragLeave (s : AppState) : AppState := { s with isDragging := false }

/-- The method `Array.prototype.filter` with a callback that also receives the
index; `start` is the index of the first element of the list. -/
def filterWithIndex {α : Type} (p : α → Nat → Bool) : Nat → List α → List α
  | _, [] => []
  | start, x :: xs =>
    if p x start then x :: filterWithIndex p (start + 1) xs
    else filterWithIndex p (start + 1) xs

/-- The handler `removeFile`: `prev.filter((_, i) => i !== index)`. -/
def removeFile (s : AppState) (index : Nat) : AppState :=
  { s with uploadedFiles := filterWithIndex (fun _ i => i != index) 0 s.uploadedFiles }

/-- The five field names `handleInputChange` is called with. -/
inductive MetadataField where
  | matterOverview
  | peopleAndAliases
  | noteworthyOrganizations
  | noteworthyTerms
  | additionalContext
  deriving DecidableEq, Repr

/-- The handler `handleInputChange`: `{ ...prev, [field]: value }`. -/
def handleInputChange (s : AppState) (field : MetadataField) (value : String) : AppState :=
  match field with
  | .matterOverview => { s with formData := { s.formData with matterOverview := value } }
  | .peopleAndAliases => { s with formData := { s.formData with peopleAndAliases := value } }
  | .noteworthyOrganizations =>
    { s with formData := { s.formData with noteworthyOrganizations := value } }
  | .noteworthyTerms => { s with formData := { s.formData with noteworthyTerms := value } }
  | .additionalContext => { s with formData := { s.formData with additionalContext := value } }

/-! ## Relevance classification -/

/-- The part of `processRelevance` that runs before `await fetch(...)`. -/
def processRelevanceStart (P : Platform) (s : AppState) : AppState × Option Request :=
  let criteria := jsTrim (strOr s.formData.matterOverview "")
  if !(JsVal.str criteria).truthy then
    ({ s with relevanceError := some "Case Summary is required for relevance check." }, none)
  else if s.uploadedFiles.length = 0 then
    let msg := "Please upload at least one document before running relevance check."
    ({ s with relevanceError := some msg }, none)
  else
    let fd := [FormPart.text "criteria" criteria,
               FormPart.text "metadata" (P.jsonStringify s.formData.toJsVal)]
      ++ s.uploadedFiles.map (FormPart.file "files")
    ({ s with isRelevanceLoading := true, relevanceError := none, expandedFiles := [],
              relevanceResults := none },
     some { url := API_BASE ++ "/api/relevance-check", method := "POST", body := .form fd })

/-- The object literal passed to `setRelevanceResults`; reading a property of
`null` or `undefined` throws. -/
def relevanceBuckets (P : Platform) (data : JsVal) : Except JsError RelevanceResults :=
  if data.nullish then .error ⟨P.typeErrorMessage "highlyRelevant"⟩
  else
    .ok { highlyRelevant := (data.get "highlyRelevant").or (.arr []),
          partiallyRelevant := (data.get "partiallyRelevant").or (.arr []),
          lessRelevant := (data.get "lessRelevant").or (.arr []),
          notRelevant := (data.get "notRelevant").or (.arr []),
          failed := (data.get "failed").or (.arr []) }

/-- What the `try` block of `processRelevance` computes after the `await`:
the buckets to store, or the error that reaches `catch`. -/
def relevanceReply (P : Platform) (o : FetchOutcome) : Except JsError RelevanceResults :=
  match o with
  | .rejected e => .error e
  | .resolved res =>
    if !res.ok then
      match res.text with
      | .error e => .error e
      | .ok text =>
        .error ⟨strOr text ("Error getting relevance (status " ++ toString res.status ++ ").")⟩
    else
      match res.json P with
      | .error e => .error e
      | .ok data => relevanceBuckets P data

/-- The part of `processRelevance` that runs once `fetch` has settled, applied
to the state at that time. -/
def processRelevanceFinish (P : Platform) (s : AppState) (o : FetchOutcome) : AppState :=
  let s1 : AppState :=
    match relevanceReply P o with
    | .ok buckets => { s with relevanceResults := some buckets }
    | .error err =>
      let msg := strOr err.message "Something went wrong while getting relevance results."
      { s with relevanceError := some msg }
  { s1 with isRelevanceLoading := false }

/-- The handler `processRelevance` run to completion with no other event in
between: the final state and the requests issued. -/
def processRelevance (P : Platform) (s : AppState) (o : FetchOutcome) :
    AppState × List Request :=
  match processRelevanceStart P s with
  | (s1, none) => (s1, [])
  | (s1, some req) => (processRelevanceFinish P s1 o, [req])

/-! ## Expansion state -/

/-- The read `expandedFiles[key]`: the stored flag, `none` for `undefined`.
The keys the component builds are a section title or
`title-name-index`; none is a property inherited from `Object.prototype`. -/
def lookupFlag (key : String) : List (String × Bool) → Option Bool
  | [] => none
  | (k, v) :: rest => if k = key then some v else lookupFlag key rest

/-- The object `{ ...prev, [key]: value }`: an existing key keeps its place,
a new key is added at the end. -/
def setFlag (key : String) (value : Bool) : List (String × Bool) → List (String × Bool)
  | [] => [(key, value)]
  | (k, v) :: rest => if k = key then (k, value) :: rest else (k, v) :: setFlag key value rest

/-- Truthiness of `expandedFiles[key]`, as tested by the render
(`expandedFiles[title] ? "-" : "+"`): `undefined` counts as closed. -/
def isExpanded (flags : List (String × Bool)) (key : String) : Bool :=
  match lookupFlag key flags with
  | some v => v
  | none => false

/-- The handler `toggleFileExpand`: `{ ...prev, [key]: !prev[key] }`. -/
def toggleFileExpand (s : AppState) (key : String) : AppState :=
  { s with expandedFiles := setFlag key (!(isExpanded s.expandedFiles key)) s.expandedFiles }

/-! ## Event sequences -/

/-- The events that change the component state, each async handler split into
its start and the settling of its request. -/
inductive UiEvent where
  | fileInput (files : Option (List JsFile))
  | drop (files : List JsFile)
  | dragOver
  | dragLeave
  | remove (index : Nat)
  | input (field : MetadataField) (value : String)
  | submitStart
  | submitSettled (o : FetchOutcome)
  | relevanceStart
  | relevanceSettled (o : FetchOutcome)
  | toggle (key : String)
  | askStart
  | askSettled (o : FetchOutcome)

/-- The state after one event. -/
def applyEvent (P : Platform) (s : AppState) : UiEvent → AppState
  | .fileInput files => (handleFileInputChange s files).1
  | .drop files => (handleDrop s files).1
  | .dragOver => handleDragOver s
  | .dragLeave => handleDragLeave s
  | .remove index => removeFile s index
  | .input field value => handleInputChange s field value
  | .submitStart => (handleSubmitStart P s).1
  | .submitSettled o => handleSubmitFinish P s o
  | .relevanceStart => (processRelevanceStart P s).1
  | .relevanceSettled o => processRelevanceFinish P s o
  | .toggle key => toggleFileExpand s key
  | .askStart => (handleAskQuestionStart P s).1
  | .askSettled o => handleAskQuestionFinish P s o

/-- The state after a sequence of events. -/
def runEvents (P : Platform) (s : AppState) (events : List UiEvent) : AppState :=
  events.foldl (applyEvent P) s

/-! ## Rendering of the analysis result -/

/-- The method call `v.toLowerCase()`: only a string has that method. -/
def callToLowerCase (P : Platform) (v : JsVal) : Except JsError String :=
  match v with
  | .str s => .ok (P.toLowerCase s)
  | _ => .error ⟨P.typeErrorMessage "toLowerCase"⟩

/-- The function `riskBadgeColor`. -/
def riskBadgeColor (P : Platform) (risk : JsVal) : Except JsError String :=
  match callToLowerCase P (risk.or (.str "")) with
  | .error e => .error e
  | .ok r =>
    if r = "high" then .ok "bg-red-100 text-red-700 border-red-300"
    else if r = "medium" then .ok "bg-yellow-100 text-yellow-700 border-yellow-300"
    else if r = "low" then .ok "bg-green-100 text-green-700 border-green-300"
    else .ok "bg-gray-100 text-gray-700 border-gray-300"

/-- The comparison `x > 0` on a number. -/
def JsNum.gtZero : JsNum → Bool
  | .finite q => decide (0 < q)
  | .posInf => true
  | _ => false

/-- The comparison `v > 0`. -/
def jsGtZero (P : Platform) (v : JsVal) : Bool :=
  match v with
  | .num x => x.gtZero
  | .undefined => false
  | .null => false
  | .bool b => b
  | other => P.greaterThanZero other

/-- One iteration of `result.issues.map((issue, idx) => ...)`: what the
component's own code can throw while building the card of one issue.  Reading
`issue.title` throws for `null` and `undefined`; the template literal with
`issue.categoryLabel` converts it to text; `riskBadgeColor` lower-cases the
risk level.  (What React and `ReactMarkdown` do with the values is the
libraries' business.) -/
def renderIssue (P : Platform) (issue : JsVal) : Except JsError Unit :=
  match P.getProp issue "title" with
  | .error e => .error e
  | .ok _ =>
    let label : Except JsError String :=
      if (issue.get "categoryGroup").truthy && (issue.get "categoryLabel").truthy then
        jsToString P (issue.get "categoryLabel")
      else .ok ""
    match label with
    | .error e => .error e
    | .ok _ =>
      match riskBadgeColor P (issue.get "riskLevel") with
      | .error e => .error e
      | .ok _ => .ok ()

/-- The cards of all issues, in order: the first error thrown, if any. -/
def renderIssues (P : Platform) : List JsVal → Except JsError Unit
  | [] => .ok ()
  | issue :: rest =>
    match renderIssue P issue with
    | .error e => .error e
    | .ok _ => renderIssues P rest

/-- The block `{result && (...)}` of the render: `none` when `result` is falsy
and the panel is not rendered, otherwise the issue count shown in the heading;
an error when building the panel throws.  The issue cards are built when
`result.issues && result.issues.length > 0`, by `result.issues.map`, which
only an array has. -/
def renderResultPanel (P : Platform) (result : JsVal) : Except JsError (Option JsVal) :=
  if !result.truthy then .ok none
  else
    let issues := result.get "issues"
    if issues.truthy && jsGtZero P (issues.get "length") then
      match issues with
      | .arr xs =>
        match renderIssues P xs with
        | .error e => .error e
        | .ok _ => .ok (displayedIssueCount result)
      | _ => .error ⟨P.typeErrorMessage "map"⟩
    else .ok (displayedIssueCount result)

/-! ## Vocabulary of the specification -/

/-- A conversation message with text fields, `{role, content}`. -/
structure ChatMessage where
  role : String
  content : String
  deriving DecidableEq, Repr

/-- The object `{ role, content }` for a text message. -/
def ChatMessage.toJsVal (m : ChatMessage) : JsVal :=
  .obj [("role", .str m.role), ("content", .str m.content)]

/-- A history of text messages as the array held in `qaMessages`. -/
def historyValue (h : List ChatMessage) : List JsVal := h.map ChatMessage.toJsVal

/-- A failed request: a transport failure or a non-success response. -/
def FetchOutcome.failed : FetchOutcome → Bool
  | .rejected _ => true
  | .resolved res => !res.ok

/-- The reply precedence as the specification words it: the `answer` field
when it is present, otherwise the `analysis` field when it is present,
otherwise the empty text; a raw text reply is taken as it is. -/
def specReplyContent (r : JsVal) : JsVal :=
  match r with
  | .str t => .str t
  | _ =>
    if !(r.get "answer").nullish then r.get "answer"
    else if !(r.get "analysis").nullish then r.get "analysis"
    else .str ""

/-- The store invariant: every staged document has at most 104,857,600 bytes. -/
def withinSizeLimit (s : AppState) : Prop := ∀ f ∈ s.uploadedFiles, f.size ≤ 104857600

/-- A field value that is text or is missing (`undefined` or `null`). -/
def JsVal.isTextOrMissing : JsVal → Bool
  | .str _ => true
  | .undefined => true
  | .null => true
  | _ => false

/-- The text of a field, empty when the field is missing. -/
def JsVal.textOrEmpty : JsVal → String
  | .str s => s
  | _ => ""

/-- A message record: an object whose `role` and `content`, when present, are
text. -/
def isChatRecord (m : JsVal) : Bool :=
  match m with
  | .obj fields =>
    (JsVal.lookupField "role" fields).isTextOrMissing
      && (JsVal.lookupField "content" fields).isTextOrMissing
  | _ => false

/-- The five transcript lines of one message as the specification words them:
the upper-cased role label (`MESSAGE` when the role is missing or empty), the
content (empty when missing), an empty line, the separator, an empty line. -/
def specMessageLines (P : Platform) (m : JsVal) : List String :=
  [if (m.get "role").textOrEmpty = "" then "MESSAGE"
     else P.toUpperCase (m.get "role").textOrEmpty,
   (m.get "content").textOrEmpty, "", "----", ""]

/-- The lines of the transcript as the specification words them: four header
lines, then the five lines of each message in history order. -/
def specTranscriptLines (P : Platform) (exportedAt : String) (msgs : List JsVal) :
    List String :=
  ["ExportedAt: " ++ exportedAt, "", "---- CHAT TRANSCRIPT ----", ""]
    ++ msgs.flatMap (specMessageLines P)

/-- An issue record: an object whose display fields, when present, are text. -/
def isIssueRecord (x : JsVal) : Bool :=
  match x with
  | .obj fields =>
    ["title", "riskLevel", "categoryGroup", "categoryLabel", "extraLabels", "description",
      "timeline", "partiesInvolved", "keyPeople", "citations"].all
        (fun k => (JsVal.lookupField k fields).isTextOrMissing)
  | _ => false

/-- An analysis result: an object whose `analysis`, when present, is text and
whose `issues`, when present, is a sequence of issue records. -/
def isAnalysisResult (d : JsVal) : Bool :=
  match d with
  | .obj fields =>
    (JsVal.lookupField "analysis" fields).isTextOrMissing
      && (match JsVal.lookupField "issues" fields with
          | .arr xs => xs.all isIssueRecord
          | .undefined => true
          | .null => true
          | _ => false)
  | _ => false

/-- The length of `d.issues`, 0 when `issues` is absent. -/
def issuesLength (d : JsVal) : Nat :=
  match d.get "issues" with
  | .arr xs => xs.length
  | _ => 0

/-! ## A reference platform

A concrete `Platform`, used to instantiate the theorems below: a JSON codec
for `null`, booleans, integers, strings, arrays and objects, ASCII upper
casing and decimal printing of integers. -/

namespace Ref

/-- The double quote character. -/
def dquote : Char := Char.ofNat 34

/-- The backslash character. -/
def backslash : Char := Char.ofNat 92

/-- The opening brace. -/
def lbrace : Char := Char.ofNat 123

/-- The closing brace. -/
def rbrace : Char := Char.ofNat 125

/-- The lower-case hexadecimal digit of `n < 16`. -/
def hexDigit (n : Nat) : Char :=
  if n < 10 then Char.ofNat (48 + n) else Char.ofNat (87 + n)

/-- Value of a hexadecimal digit. -/
def hexVal (c : Char) : Option Nat :=
  let n := c.toNat
  if 48 ≤ n ∧ n ≤ 57 then some (n - 48)
  else if 97 ≤ n ∧ n ≤ 102 then some (n - 87)
  else if 65 ≤ n ∧ n ≤ 70 then some (n - 55)
  else none

/-- JSON escape of one character inside a string literal. -/
def escapeChar (c : Char) : List Char :=
  if c = dquote then [backslash, dquote]
  else if c = backslash then [backslash, backslash]
  else if c = Char.ofNat 10 then [backslash, 'n']
  else if c = Char.ofNat 13 then [backslash, 'r']
  else if c = Char.ofNat 9 then [backslash, 't']
  else if c.toNat < 32 then
    [backslash, 'u', '0', '0', hexDigit (c.toNat / 16), hexDigit (c.toNat % 16)]
  else [c]

/-- A JSON string literal. -/
def quote (s : String) : List Char :=
  dquote :: (s.data.flatMap escapeChar ++ [dquote])

/-- Text of a number: integers in decimal, anything else as `null`. -/
def numText : JsNum → List Char
  | .finite q => if q.den = 1 then (toString q.num).data else "null".data
  | .negZero => ['0']
  | _ => "null".data

/-- Comma-separated concatenation. -/
def commaJoin : List (List Char) → List Char
  | [] => []
  | [x] => x
  | x :: y :: rest => x ++ ',' :: commaJoin (y :: rest)

mutual
/-- JSON text of a value. -/
def valText : JsVal → List Char
  | .undefined => "null".data
  | .null => "null".data
  | .bool b => if b then "true".data else "false".data
  | .num x => numText x
  | .str s => quote s
  | .arr xs => '[' :: (commaJoin (elemTexts xs) ++ [']'])
  | .obj fields => lbrace :: (commaJoin (fieldTexts fields) ++ [rbrace])
/-- JSON texts of the elements of an array. -/
def elemTexts : List JsVal → List (List Char)
  | [] => []
  | x :: rest => valText x :: elemTexts rest
/-- JSON texts of the members of an object; `undefined` members are left out. -/
def fieldTexts : List (String × JsVal) → List (List Char)
  | [] => []
  | (_, .undefined) :: rest => fieldTexts rest
  | (k, v) :: rest => (quote k ++ ':' :: valText v) :: fieldTexts rest
end

/-- The reference `JSON.stringify`. -/
def stringify (v : JsVal) : String := ⟨valText v⟩

/-- JSON insignificant white space. -/
def isWs (c : Char) : Bool :=
  c = ' ' || c = Char.ofNat 10 || c = Char.ofNat 13 || c = Char.ofNat 9

/-- Drop leading white space. -/
def skipWs (cs : List Char) : List Char := cs.dropWhile isWs

/-- Character denoted by a one-letter escape. -/
def unescape (e : Char) : Option Char :=
  if e = dquote then some dquote
  else if e = backslash then some backslash
  else if e = '/' then some '/'
  else if e = 'n' then some (Char.ofNat 10)
  else if e = 'r' then some (Char.ofNat 13)
  else if e = 't' then some (Char.ofNat 9)
  else if e = 'b' then some (Char.ofNat 8)
  else if e = 'f' then some (Char.ofNat 12)
  else none

/-- Reads a string literal after its opening quote: the decoded characters
and the input left after the closing quote. -/
def stringBody : List Char → Option (List Char × List Char)
  | [] => none
  | c :: rest =>
    if c = dquote then some ([], rest)
    else if c = backslash then
      match rest with
      | [] => none
      | e :: rest1 =>
        if e = 'u' then
          match rest1 with
          | a :: b :: c2 :: d :: rest2 =>
            match hexVal a, hexVal b, hexVal c2, hexVal d with
            | some x, some y, some z, some w =>
              (stringBody rest2).map
                (fun r => (Char.ofNat (((x * 16 + y) * 16 + z) * 16 + w) :: r.1, r.2))
            | _, _, _, _ => none
          | _ => none
        else
          match unescape e with
          | none => none
          | some ch => (stringBody rest1).map (fun r => (ch :: r.1, r.2))
    else if c.toNat < 32 then none
    else (stringBody rest).map (fun r => (c :: r.1, r.2))

/-- Value of a run of decimal digits. -/
def digitsVal : List Char → Nat → Nat
  | [], acc => acc
  | c :: rest, acc => digitsVal rest (acc * 10 + (c.toNat - 48))

/-- Reads an integer literal. -/
def number (cs : List Char) : Option (JsVal × List Char) :=
  let neg := cs.head? = some '-'
  let body := if neg then cs.drop 1 else cs
  let ds := body.takeWhile Char.isDigit
  if ds = [] then none
  else
    let n : Int := digitsVal ds 0
    some (.num (.finite (if neg then -n else n)), body.dropWhile Char.isDigit)

mutual
/-- Reads one JSON value; `fuel` bounds the nesting and sequence depth. -/
def value : Nat → List Char → Option (JsVal × List Char)
  | 0, _ => none
  | fuel + 1, cs =>
    let cs := skipWs cs
    if "null".data.isPrefixOf cs then some (.null, cs.drop 4)
    else if "true".data.isPrefixOf cs then some (.bool true, cs.drop 4)
    else if "false".data.isPrefixOf cs then some (.bool false, cs.drop 5)
    else
      match cs with
      | [] => none
      | c :: rest =>
        if c = dquote then (stringBody rest).map (fun r => (.str ⟨r.1⟩, r.2))
        else if c = '[' then
          match skipWs rest with
          | [] => none
          | d :: rest1 =>
            if d = ']' then some (.arr [], rest1)
            else (elements fuel (d :: rest1)).map (fun r => (.arr r.1, r.2))
        else if c = lbrace then
          match skipWs rest with
          | [] => none
          | d :: rest1 =>
            if d = rbrace then some (.obj [], rest1)
            else (members fuel (d :: rest1)).map (fun r => (.obj r.1, r.2))
        else number (c :: rest)
/-- Reads the elements of an array up to and including the closing bracket. -/
def elements : Nat → List Char → Option (List JsVal × List Char)
  | 0, _ => none
  | fuel + 1, cs =>
    match value fuel cs with
    | none => none
    | some (v, rest) =>
      match skipWs rest with
      | [] => none
      | d :: rest1 =>
        if d = ',' then (elements fuel rest1).map (fun r => (v :: r.1, r.2))
        else if d = ']' then some ([v], rest1)
        else none
/-- Reads the members of an object up to and including the closing brace. -/
def members : Nat → List Char → Option (List (String × JsVal) × List Char)
  | 0, _ => none
  | fuel + 1, cs =>
    match skipWs cs with
    | [] => none
    | q :: rest =>
      if q = dquote then
        match stringBody rest with
        | none => none
        | some (k, rest1) =>
          match skipWs rest1 with
          | [] => none
          | col :: rest2 =>
            if col = ':' then
              match value fuel rest2 with
              | none => none
              | some (v, rest3) =>
                match skipWs rest3 with
                | [] => none
                | d :: rest4 =>
                  if d = ',' then (members fuel rest4).map (fun r => ((⟨k⟩, v) :: r.1, r.2))
                  else if d = rbrace then some ([(⟨k⟩, v)], rest4)
                  else none
            else none
      else none
end

/-- The reference `JSON.parse`: one value, then only white space. -/
def parse (s : String) : Except JsError JsVal :=
  match value (2 * s.data.length + 2) s.data with
  | none => .error ⟨"Unexpected token in JSON"⟩
  | some (v, rest) =>
    if skipWs rest = [] then .ok v else .error ⟨"Unexpected token in JSON"⟩

end Ref

/-- The reference platform. -/
def refPlatform : Platform where
  jsonParse := Ref.parse
  jsonStringify := Ref.stringify
  toUpperCase := fun s => s.map Char.toUpper
  toLowerCase := fun s => s.map Char.toLower
  greaterThanZero := fun v =>
    match v with
    | .str s =>
      match Ref.number s.data with
      | some (.num x, []) => x.truthy && !(s.data.head? = some '-')
      | _ => false
    | _ => false
  numberToString := fun x => ⟨Ref.numText x⟩
  typeErrorMessage := fun k => "Cannot use property " ++ k

end LegalUI

/-! # Theorems -/

namespace LegalUI

/-! ## Auxiliary facts -/

theorem trimChars_eq_nil_iff (l : List Char) :
    trimChars l = [] ↔ ∀ c ∈ l, isJsWhiteSpace c = true := by
  unfold trimChars
  rw [List.reverse_eq_nil_iff, List.dropWhile_eq_nil_iff]
  constructor
  · intro h
    have hnil : l.dropWhile isJsWhiteSpace = [] := by
      by_contra hne
      have hmem := h _ (List.mem_reverse.mpr (List.head_mem hne))
      have hnot := List.head_dropWhile_not isJsWhiteSpace l hne
      simp [hmem] at hnot
    exact List.dropWhile_eq_nil_iff.mp hnil
  · intro h c hc
    rw [List.dropWhile_eq_nil_iff.mpr h] at hc
    simp at hc

theorem jsTrim_eq_empty_iff (s : String) : jsTrim s = "" ↔ isBlank s := by
  unfold jsTrim isBlank
  rw [← trimChars_eq_nil_iff]
  constructor
  · intro h
    have := congrArg String.data h
    simpa using this
  · intro h
    rw [h]

theorem truthy_trim_of_blank (s : String) (h : isBlank s) :
    (JsVal.str (jsTrim s)).truthy = false := by
  simp [JsVal.truthy, (jsTrim_eq_empty_iff s).mpr h]

theorem truthy_trim_of_not_blank (s : String) (h : ¬ isBlank s) :
    (JsVal.str (jsTrim s)).truthy = true := by
  have hne : jsTrim s ≠ "" := fun he => h ((jsTrim_eq_empty_iff s).mp he)
  simp [JsVal.truthy, hne]

theorem strOr_ne_empty (a b : String) (hb : b ≠ "") : strOr a b ≠ "" := by
  unfold strOr
  split
  · rename_i h
    simpa using h
  · exact hb

theorem strOr_of_ne_empty (a b : String) (ha : a ≠ "") : strOr a b = a := by
  simp [strOr, ha]

theorem strOr_empty (b : String) : strOr "" b = b := by
  simp [strOr]

theorem append_ne_empty_left (a b : String) (ha : a ≠ "") : a ++ b ≠ "" := by
  intro h
  apply ha
  have hd := congrArg String.data h
  rw [String.data_append] at hd
  have : a.data = [] := (List.append_eq_nil.mp hd).1
  cases a
  simp_all

theorem maxSize_eq : maxSize = 104857600 := by
  norm_num [maxSize]

theorem not_oversize_iff (n : Nat) : (!decide (n > maxSize)) = decide (n ≤ 104857600) := by
  rw [maxSize_eq]
  by_cases h : n ≤ 104857600
  · have h2 : ¬ n > 104857600 := by omega
    simp only [h, h2, decide_True, decide_False, Bool.not_false]
  · have h2 : n > 104857600 := by omega
    simp only [h, h2, decide_True, decide_False, Bool.not_true]

theorem oversize_iff (n : Nat) : decide (n > maxSize) = decide (104857600 < n) := by
  rw [maxSize_eq]

theorem filter_valid (l : List JsFile) :
    l.filter (fun file => !decide (file.size > maxSize))
      = l.filter (fun x => decide (x.size ≤ 104857600)) := by
  congr 1
  funext x
  exact not_oversize_iff x.size

theorem filter_oversize (l : List JsFile) :
    l.filter (fun file => decide (file.size > maxSize))
      = l.filter (fun x => decide (104857600 < x.size)) := by
  simp only [gt_iff_lt, maxSize_eq]

/-! ## Document staging -/

/-- C1: `addFiles` appends to the staged list exactly the candidate files of
at most 104,857,600 bytes, in arrival order, and raises one alert naming each
larger file; the rest of the state is untouched.  For a single file: it is
appended when its size is at most the limit (the limit itself included), and
otherwise the list is unchanged and one alert naming the file is raised. -/
theorem addFiles_spec (s : AppState) (files : List JsFile) (f : JsFile) :
    (addFiles s files).1 =
        { s with uploadedFiles :=
            s.uploadedFiles ++ files.filter (fun x => decide (x.size ≤ 104857600)) }
    ∧ (addFiles s files).1.uploadedFiles.length =
        s.uploadedFiles.length + files.countP (fun x => decide (x.size ≤ 104857600))
    ∧ (addFiles s files).2 =
        (files.filter (fun x => decide (104857600 < x.size))).map
          (fun x => "File \"" ++ x.name ++ "\" exceeds 100MB.")
    ∧ (addFiles s files).2.length = files.countP (fun x => decide (104857600 < x.size))
    ∧ (addFiles s [f]).1.uploadedFiles =
        (if f.size ≤ 104857600 then s.uploadedFiles ++ [f] else s.uploadedFiles)
    ∧ (addFiles s [f]).2 =
        (if f.size ≤ 104857600 then [] else ["File \"" ++ f.name ++ "\" exceeds 100MB."])
    ∧ (addFiles s [{ f with size := 104857600 }]).1.uploadedFiles =
        s.uploadedFiles ++ [{ f with size := 104857600 }] := by
  have hone : ∀ g : JsFile, [g].filter (fun x => decide (x.size ≤ 104857600))
      = if g.size ≤ 104857600 then [g] else [] := by
    intro g
    by_cases h : g.size ≤ 104857600
    · rw [if_pos h, List.filter_cons_of_pos (by simpa using h), List.filter_nil]
    · rw [if_neg h, List.filter_cons_of_neg (by simpa using h), List.filter_nil]
  have hone2 : ∀ g : JsFile, [g].filter (fun x => decide (104857600 < x.size))
      = if g.size ≤ 104857600 then [] else [g] := by
    intro g
    by_cases h : g.size ≤ 104857600
    · rw [if_pos h, List.filter_cons_of_neg (by simpa using h), List.filter_nil]
    · rw [if_neg h, List.filter_cons_of_pos (by simpa using h), List.filter_nil]
  refine ⟨?_, ?_, ?_, ?_, ?_, ?_, ?_⟩
  · simp only [addFiles, filter_valid]
  · simp only [addFiles, filter_valid, List.length_append, List.countP_eq_length_filter]
  · simp only [addFiles, filter_oversize]
    rfl
  · simp only [addFiles, filter_oversize, List.length_map, List.countP_eq_length_filter]
  · simp only [addFiles, filter_valid, hone]
    split <;> simp
  · simp only [addFiles, filter_oversize, hone2]
    split <;> simp [oversizeAlert]
  · simp only [addFiles, filter_valid, hone]
    simp

/-! ## Case analysis -/

/-- C2: with no staged document, `handleSubmit` issues no request, whatever
the metadata and whatever the network would answer: it sets the analysis error
to "Please upload at least one document." and leaves every other part of the
state (loading flag, result, staged documents, metadata) as it was. -/
theorem handleSubmit_no_documents (P : Platform) (s : AppState) (o : FetchOutcome)
    (h : s.uploadedFiles = []) :
    handleSubmit P s o
        = ({ s with errorMsg := some "Please upload at least one document." }, [])
    ∧ (handleSubmitStart P s).2 = none
    ∧ (handleSubmit P s o).1.isLoading = s.isLoading
    ∧ (handleSubmit P s o).1.result = s.result
    ∧ (handleSubmit P s o).1.uploadedFiles = s.uploadedFiles
    ∧ (handleSubmit P s o).1.formData = s.formData := by
  have hs : handleSubmitStart P s
      = ({ s with errorMsg := some "Please upload at least one document." }, none) := by
    simp [handleSubmitStart, h]
  have hh : handleSubmit P s o
      = ({ s with errorMsg := some "Please upload at least one document." }, []) := by
    simp [handleSubmit, hs]
  refine ⟨hh, ?_, ?_, ?_, ?_, ?_⟩
  · rw [hs]
  all_goals rw [hh]

theorem handleSubmit_no_documents_witness :
    ({ formData := { matterOverview := "Dispute over a lease" } } : AppState).uploadedFiles = []
    ∧ (handleSubmit refPlatform { formData := { matterOverview := "Dispute over a lease" } }
        (.resolved { status := 200, body := .ok "null" })).1.errorMsg
        = some "Please upload at least one document."
    ∧ (handleSubmit refPlatform { formData := { matterOverview := "Dispute over a lease" } }
        (.resolved { status := 200, body := .ok "null" })).2 = [] :=
  ⟨rfl,
   congrArg (fun r => r.1.errorMsg)
     (handleSubmit_no_documents refPlatform
       { formData := { matterOverview := "Dispute over a lease" } }
       (.resolved { status := 200, body := .ok "null" }) rfl).1,
   congrArg (fun r => r.2)
     (handleSubmit_no_documents refPlatform
       { formData := { matterOverview := "Dispute over a lease" } }
       (.resolved { status := 200, body := .ok "null" }) rfl).1⟩

/-- C3 as stated fails: with a blank case summary and no staged document the
error is the one about documents, not "Case Summary is required.". -/
theorem handleSubmit_blank_overview_counterexample :
    isBlank ({ formData := { matterOverview := "  " } } : AppState).formData.matterOverview
    ∧ (handleSubmit refPlatform { formData := { matterOverview := "  " } }
        (.rejected ⟨"offline"⟩)).1.errorMsg = some "Please upload at least one document."
    ∧ (handleSubmit refPlatform { formData := { matterOverview := "  " } }
        (.rejected ⟨"offline"⟩)).1.errorMsg ≠ some "Case Summary is required." := by
  refine ⟨by decide, rfl, ?_⟩
  show some "Please upload at least one document." ≠ some "Case Summary is required."
  decide

/-- C3, amended: with a blank case summary `handleSubmit` issues no request;
when at least one document is staged the analysis error is exactly
"Case Summary is required." (with none staged the document check comes first),
and nothing else in the state changes. -/
theorem handleSubmit_blank_overview (P : Platform) (s : AppState) (o : FetchOutcome)
    (h : isBlank s.formData.matterOverview) :
    (handleSubmit P s o).2 = []
    ∧ (handleSubmitStart P s).2 = none
    ∧ (handleSubmit P s o).1
        = { s with errorMsg := some (if s.uploadedFiles.length = 0
            then "Please upload at least one document." else "Case Summary is required.") } := by
  have ht := truthy_trim_of_blank _ h
  have hs : handleSubmitStart P s
      = ({ s with errorMsg := some (if s.uploadedFiles.length = 0
            then "Please upload at least one document." else "Case Summary is required.") },
         none) := by
    unfold handleSubmitStart
    by_cases hl : s.uploadedFiles.length = 0
    · simp [hl]
    · simp [hl, ht]
  refine ⟨?_, ?_, ?_⟩
  · simp [handleSubmit, hs]
  · rw [hs]
  · simp [handleSubmit, hs]

theorem handleSubmit_blank_overview_witness :
    isBlank ({ uploadedFiles := [⟨"lease.pdf", 2048, 1⟩],
               formData := { matterOverview := " \t\n" } } : AppState).formData.matterOverview
    ∧ (handleSubmit refPlatform
        { uploadedFiles := [⟨"lease.pdf", 2048, 1⟩], formData := { matterOverview := " \t\n" } }
        (.resolved { status := 200, body := .ok "null" })).2 = []
    ∧ (handleSubmit refPlatform
        { uploadedFiles := [⟨"lease.pdf", 2048, 1⟩], formData := { matterOverview := " \t\n" } }
        (.resolved { status := 200, body := .ok "null" })).1.errorMsg
        = some "Case Summary is required." :=
  ⟨by decide,
   (handleSubmit_blank_overview refPlatform
      { uploadedFiles := [⟨"lease.pdf", 2048, 1⟩], formData := { matterOverview := " \t\n" } }
      (.resolved { status := 200, body := .ok "null" }) (by decide)).1,
   congrArg AppState.errorMsg
     (handleSubmit_blank_overview refPlatform
      { uploadedFiles := [⟨"lease.pdf", 2048, 1⟩], formData := { matterOverview := " \t\n" } }
      (.resolved { status := 200, body := .ok "null" }) (by decide)).2.2⟩

theorem handleSubmitStart_valid (P : Platform) (s : AppState)
    (hdocs : s.uploadedFiles ≠ []) (hov : ¬ isBlank s.formData.matterOverview) :
    handleSubmitStart P s
      = ({ s with errorMsg := none, isLoading := true, result := .null },
         some { url := API_BASE ++ "/api/analyze-case", method := "POST",
                body := .form (s.uploadedFiles.map (FormPart.file "files")
                  ++ [FormPart.text "metadata" (P.jsonStringify s.formData.toJsVal)]) }) := by
  have ht := truthy_trim_of_not_blank _ hov
  have hl : s.uploadedFiles.length ≠ 0 := by
    intro h0
    exact hdocs (List.length_eq_zero.mp h0)
  simp [handleSubmitStart, hl, ht]

theorem length_or_zero (xs : List JsVal) :
    (JsVal.num (.finite (xs.length : Rat))).or (.num (.finite 0))
      = .num (.finite (xs.length : Rat)) := by
  unfold JsVal.or
  by_cases h : xs.length = 0
  · simp [JsVal.truthy, JsNum.truthy, h]
  · simp [JsVal.truthy, JsNum.truthy, h]

/-! ## Conversation -/

theorem handleAskQuestionStart_valid (P : Platform) (s : AppState)
    (hq : ¬ isBlank s.askQuestion) :
    handleAskQuestionStart P s
      = ({ s with qaMessages := s.qaMessages ++ [userMessage (jsTrim s.askQuestion)],
                  askQuestion := "", isAskLoading := true, qaError := none },
         some { url := API_BASE ++ "/api/ask", method := "POST",
                headers := [("Content-Type", "application/json")],
                body := .text (P.jsonStringify
                  (.obj [("question", .str (jsTrim s.askQuestion)),
                         ("history", .arr (s.qaMessages
                            ++ [userMessage (jsTrim s.askQuestion)]))])) }) := by
  have ht := truthy_trim_of_not_blank _ hq
  simp [handleAskQuestionStart, ht]

theorem statusFallback_ne_empty (n : Nat) :
    "Failed to get answer (status " ++ toString n ++ ")." ≠ "" := by
  apply append_ne_empty_left
  apply append_ne_empty_left
  decide

theorem askReply_failed (P : Platform) (o : FetchOutcome) (hfail : o.failed = true) :
    ∃ e, askReply P o = .error e
      ∧ (∀ err, o = .rejected err → e = err)
      ∧ (∀ res err, o = .resolved res → res.body = .error err → e = err)
      ∧ (∀ res t, o = .resolved res → res.body = .ok t →
          e.message = if t = "" then "Failed to get answer (status " ++ toString res.status ++ ")."
            else t) := by
  cases o with
  | rejected err =>
    refine ⟨err, rfl, ?_, ?_, ?_⟩
    · intro err2 h
      cases h
      rfl
    · intro res err2 h
      cases h
    · intro res t h
      cases h
  | resolved res =>
    have hok : res.ok = false := by
      simpa [FetchOutcome.failed] using hfail
    cases hb : res.body with
    | error err =>
      refine ⟨err, ?_, ?_, ?_, ?_⟩
      · simp [askReply, hok, Response.text, hb]
      · intro err2 h
        cases h
      · intro res2 err2 h h2
        cases h
        rw [hb] at h2
        cases h2
        rfl
      · intro res2 t h h2
        cases h
        rw [hb] at h2
        cases h2
    | ok t =>
      refine ⟨⟨strOr t ("Failed to get answer (status " ++ toString res.status ++ ").")⟩,
        ?_, ?_, ?_, ?_⟩
      · simp [askReply, hok, Response.text, hb]
      · intro err2 h
        cases h
      · intro res2 err2 h h2
        cases h
        rw [hb] at h2
        cases h2
      · intro res2 t2 h h2
        cases h
        rw [hb] at h2
        cases h2
        by_cases ht : t = ""
        · subst ht
          simp [strOr]
        · simp [strOr, ht]

/-- C5: for a non-blank question and a failed request (the promise rejects,
or the response has a non-success status), `handleAskQuestion` leaves the
history equal to the old history followed by the single user message with the
trimmed question: nothing is rolled back and no assistant message is added.
The Q&A error holds a non-empty text, namely the response body when that is
non-empty and otherwise "Failed to get answer (status N)." with the status
code; the pending flag is off again, and one request was issued. -/
theorem handleAskQuestion_failure (P : Platform) (s : AppState) (o : FetchOutcome)
    (hq : ¬ isBlank s.askQuestion) (hfail : o.failed = true) :
    (handleAskQuestion P s o).1.qaMessages
        = s.qaMessages
          ++ [.obj [("role", .str "user"), ("content", .str (jsTrim s.askQuestion))]]
    ∧ (handleAskQuestion P s o).1.isAskLoading = false
    ∧ (∃ m, (handleAskQuestion P s o).1.qaError = some m ∧ m ≠ "")
    ∧ (∀ res t, o = .resolved res → res.body = .ok t →
        (handleAskQuestion P s o).1.qaError
          = some (if t = "" then "Failed to get answer (status " ++ toString res.status ++ ")."
              else t))
    ∧ (∀ err, o = .rejected err →
        (handleAskQuestion P s o).1.qaError
          = some (if err.message = "" then "Something went wrong while asking the question."
              else err.message))
    ∧ (handleAskQuestion P s o).2.length = 1 := by
  obtain ⟨e, he, hrej, _, hbody⟩ := askReply_failed P o hfail
  have hh : (handleAskQuestion P s o).1
      = { s with qaMessages := s.qaMessages ++ [userMessage (jsTrim s.askQuestion)],
                 askQuestion := "", isAskLoading := false,
                 qaError := some (strOr e.message
                   "Something went wrong while asking the question.") } := by
    simp [handleAskQuestion, handleAskQuestionStart_valid P s hq, handleAskQuestionFinish, he]
  refine ⟨?_, ?_, ?_, ?_, ?_, ?_⟩
  · rw [hh]
    rfl
  · rw [hh]
  · rw [hh]
    exact ⟨_, rfl, strOr_ne_empty _ _ (by decide)⟩
  · intro res t ho hb
    rw [hh]
    have hm := hbody res t ho hb
    show some (strOr e.message _) = _
    rw [hm]
    by_cases ht : t = ""
    · rw [if_pos ht, strOr_of_ne_empty _ _ (statusFallback_ne_empty res.status)]
    · rw [if_neg ht, strOr_of_ne_empty _ _ ht]
  · intro err ho
    rw [hh]
    have hm := hrej err ho
    subst hm
    show some (strOr e.message _) = _
    by_cases ht : e.message = ""
    · rw [if_pos ht, ht, strOr_empty]
    · rw [if_neg ht, strOr_of_ne_empty _ _ ht]
  · simp [handleAskQuestion, handleAskQuestionStart_valid P s hq]

theorem handleAskQuestion_failure_witness :
    (handleAskQuestion refPlatform
        { askQuestion := "  What is the notice period? ",
          qaMessages := historyValue [⟨"user", "Q1"⟩, ⟨"assistant", "A1"⟩] }
        (.resolved { status := 500, body := .ok "" })).1.qaMessages
      = historyValue [⟨"user", "Q1"⟩, ⟨"assistant", "A1"⟩]
          ++ [.obj [("role", .str "user"),
                    ("content", .str (jsTrim "  What is the notice period? "))]]
    ∧ (handleAskQuestion refPlatform
        { askQuestion := "  What is the notice period? ",
          qaMessages := historyValue [⟨"user", "Q1"⟩, ⟨"assistant", "A1"⟩] }
        (.resolved { status := 500, body := .ok "" })).1.qaError
      = some (if "" = "" then "Failed to get answer (status " ++ toString 500 ++ ")." else "") :=
  ⟨(handleAskQuestion_failure refPlatform
      { askQuestion := "  What is the notice period? ",
        qaMessages := historyValue [⟨"user", "Q1"⟩, ⟨"assistant", "A1"⟩] }
      (.resolved { status := 500, body := .ok "" }) (by decide) (by decide)).1,
   (handleAskQuestion_failure refPlatform
      { askQuestion := "  What is the notice period? ",
        qaMessages := historyValue [⟨"user", "Q1"⟩, ⟨"assistant", "A1"⟩] }
      (.resolved { status := 500, body := .ok "" }) (by decide) (by decide)).2.2.2.1
      { status := 500, body := .ok "" } "" rfl rfl⟩

/-- C6 as stated fails: for the structured reply with an empty `answer` and
`analysis` equal to "X", the `answer` field is present, so the claim asks for
an assistant message with empty content; the handler appends "X". -/
theorem handleAskQuestion_answer_counterexample :
    refPlatform.jsonParse
        (Ref.stringify (.obj [("answer", .str ""), ("analysis", .str "X")]))
      = .ok (.obj [("answer", .str ""), ("analysis", .str "X")])
    ∧ specReplyContent (.obj [("answer", .str ""), ("analysis", .str "X")]) = .str ""
    ∧ (handleAskQuestion refPlatform { askQuestion := "hi" }
        (.resolved { status := 200,
                     body := .ok (Ref.stringify
                       (.obj [("answer", .str ""), ("analysis", .str "X")])) })).1.qaMessages
      = [.obj [("role", .str "user"), ("content", .str "hi")],
         .obj [("role", .str "assistant"), ("content", .str "X")]]
    ∧ (handleAskQuestion refPlatform { askQuestion := "hi" }
        (.resolved { status := 200,
                     body := .ok (Ref.stringify
                       (.obj [("answer", .str ""), ("analysis", .str "X")])) })).1.qaMessages
      ≠ [.obj [("role", .str "user"), ("content", .str "hi")],
         .obj [("role", .str "assistant"),
               ("content", specReplyContent
                 (.obj [("answer", .str ""), ("analysis", .str "X")]))]] := by
  refine ⟨rfl, rfl, rfl, ?_⟩
  show [JsVal.obj [("role", .str "user"), ("content", .str "hi")],
         .obj [("role", .str "assistant"), ("content", .str "X")]]
      ≠ [.obj [("role", .str "user"), ("content", .str "hi")],
         .obj [("role", .str "assistant"), ("content", .str "")]]
  intro h
  simp at h

theorem replyContent_obj (P : Platform) (fields : List (String × JsVal)) :
    replyContent P (.obj fields)
      = .ok (if (JsVal.lookupField "answer" fields).truthy then JsVal.lookupField "answer" fields
          else if (JsVal.lookupField "analysis" fields).truthy
            then JsVal.lookupField "analysis" fields
          else .str "") := by
  simp only [replyContent, Platform.getProp, JsVal.nullish, JsVal.get, JsVal.or]
  by_cases h1 : (JsVal.lookupField "answer" fields).truthy = true
  · simp [h1]
  · by_cases h2 : (JsVal.lookupField "analysis" fields).truthy = true
    · simp [h1, h2]
    · simp [h1, h2]

theorem replyContent_ok (P : Platform) (r : JsVal) (hr : r.nullish = false) :
    ∃ c, replyContent P r = .ok c := by
  cases r with
  | str txt => exact ⟨_, rfl⟩
  | undefined => simp [JsVal.nullish] at hr
  | null => simp [JsVal.nullish] at hr
  | bool b =>
    exact ⟨.str "", by
      simp [replyContent, Platform.getProp, JsVal.nullish, JsVal.get, JsVal.or, JsVal.truthy]⟩
  | num x =>
    exact ⟨.str "", by
      simp [replyContent, Platform.getProp, JsVal.nullish, JsVal.get, JsVal.or, JsVal.truthy]⟩
  | arr xs =>
    exact ⟨.str "", by
      simp [replyContent, Platform.getProp, JsVal.nullish, JsVal.get, JsVal.or, JsVal.truthy]⟩
  | obj fields => exact ⟨_, replyContent_obj P fields⟩

theorem handleAskQuestion_ok (P : Platform) (s : AppState) (res : Response)
    (t : String) (r c : JsVal) (hq : ¬ isBlank s.askQuestion) (hok : res.ok = true)
    (hbody : res.body = .ok t) (hparse : P.jsonParse t = .ok r)
    (hc : replyContent P r = .ok c) :
    (handleAskQuestion P s (.resolved res)).1
      = { s with qaMessages := s.qaMessages
                   ++ [.obj [("role", .str "user"), ("content", .str (jsTrim s.askQuestion))],
                       .obj [("role", .str "assistant"), ("content", c)]],
                 askQuestion := "", isAskLoading := false, qaError := none } := by
  have hj : res.json P = .ok r := by
    simp [Response.json, hbody, hparse]
  have hrep : askReply P (.resolved res) = .ok c := by
    simp [askReply, hok, hj, hc]
  simp [handleAskQuestion, handleAskQuestionStart_valid P s hq, handleAskQuestionFinish,
    hrep, userMessage, assistantMessage]

/-- C6, amended: for a non-blank question and a successful reply `r` that is
not `null`, `handleAskQuestion` appends exactly one assistant message after the
user message, sets no Q&A error and switches the pending flag off.  The
content is `r` itself when `r` is raw text; for a structured reply it is the
`answer` field when that is present and truthy (for text: non-empty),
otherwise the `analysis` field when that is present and truthy, otherwise the
empty text. -/
theorem handleAskQuestion_success (P : Platform) (s : AppState) (res : Response)
    (t : String) (r : JsVal) (hq : ¬ isBlank s.askQuestion) (hok : res.ok = true)
    (hbody : res.body = .ok t) (hparse : P.jsonParse t = .ok r) (hr : r.nullish = false) :
    (∃ c, (handleAskQuestion P s (.resolved res)).1.qaMessages
        = s.qaMessages
          ++ [.obj [("role", .str "user"), ("content", .str (jsTrim s.askQuestion))],
              .obj [("role", .str "assistant"), ("content", c)]])
    ∧ (∀ txt, r = .str txt →
        (handleAskQuestion P s (.resolved res)).1.qaMessages
          = s.qaMessages
            ++ [.obj [("role", .str "user"), ("content", .str (jsTrim s.askQuestion))],
                .obj [("role", .str "assistant"), ("content", .str txt)]])
    ∧ (∀ fields, r = .obj fields →
        (handleAskQuestion P s (.resolved res)).1.qaMessages
          = s.qaMessages
            ++ [.obj [("role", .str "user"), ("content", .str (jsTrim s.askQuestion))],
                .obj [("role", .str "assistant"),
                      ("content",
                        if (JsVal.lookupField "answer" fields).truthy
                          then JsVal.lookupField "answer" fields
                        else if (JsVal.lookupField "analysis" fields).truthy
                          then JsVal.lookupField "analysis" fields
                        else .str "")]])
    ∧ (handleAskQuestion P s (.resolved res)).1.qaError = none
    ∧ (handleAskQuestion P s (.resolved res)).1.isAskLoading = false
    ∧ (handleAskQuestion P s (.resolved res)).1.askQuestion = ""
    ∧ (handleAskQuestion P s (.resolved res)).2.length = 1 := by
  obtain ⟨c, hc⟩ := replyContent_ok P r hr
  have hh := handleAskQuestion_ok P s res t r c hq hok hbody hparse hc
  refine ⟨⟨c, ?_⟩, ?_, ?_, ?_, ?_, ?_, ?_⟩
  · rw [hh]
  · intro txt hrt
    subst hrt
    rw [handleAskQuestion_ok P s res t _ _ hq hok hbody hparse rfl]
  · intro fields hrf
    subst hrf
    rw [handleAskQuestion_ok P s res t _ _ hq hok hbody hparse (replyContent_obj P fields)]
  · rw [hh]
  · rw [hh]
  · rw [hh]
  · simp [handleAskQuestion, handleAskQuestionStart_valid P s hq]

theorem handleAskQuestion_success_witness :
    (handleAskQuestion refPlatform
        { askQuestion := "hi", qaMessages := historyValue [⟨"user", "Q1"⟩] }
        (.resolved { status := 200,
                     body := .ok (Ref.stringify
                       (.obj [("answer", .str ""), ("analysis", .str "X")])) })).1.qaMessages
      = historyValue [⟨"user", "Q1"⟩]
        ++ [.obj [("role", .str "user"), ("content", .str (jsTrim "hi"))],
            .obj [("role", .str "assistant"), ("content", .str "X")]] :=
  (handleAskQuestion_success refPlatform
      { askQuestion := "hi", qaMessages := historyValue [⟨"user", "Q1"⟩] }
      { status := 200,
        body := .ok (Ref.stringify (.obj [("answer", .str ""), ("analysis", .str "X")])) }
      (Ref.stringify (.obj [("answer", .str ""), ("analysis", .str "X")]))
      (.obj [("answer", .str ""), ("analysis", .str "X")])
      (by decide) (by decide) rfl rfl rfl).2.2.1
      [("answer", .str ""), ("analysis", .str "X")] rfl

/-- C7: with an empty or white-space-only question, `handleAskQuestion` does
nothing: it issues no request and returns the state unchanged (history, input
field, Q&A error and pending flag included). -/
theorem handleAskQuestion_blank (P : Platform) (s : AppState) (o : FetchOutcome)
    (h : isBlank s.askQuestion) :
    handleAskQuestion P s o = (s, [])
    ∧ handleAskQuestionStart P s = (s, none)
    ∧ (handleAskQuestion P s o).1.qaMessages = s.qaMessages
    ∧ (handleAskQuestion P s o).1.askQuestion = s.askQuestion
    ∧ (handleAskQuestion P s o).1.qaError = s.qaError
    ∧ (handleAskQuestion P s o).1.isAskLoading = s.isAskLoading := by
  have ht := truthy_trim_of_blank _ h
  have hs : handleAskQuestionStart P s = (s, none) := by
    simp [handleAskQuestionStart, ht]
  have hh : handleAskQuestion P s o = (s, []) := by
    simp [handleAskQuestion, hs]
  refine ⟨hh, hs, ?_, ?_, ?_, ?_⟩ <;> rw [hh]

theorem handleAskQuestion_blank_witness :
    isBlank ({ askQuestion := " \t ", qaMessages := historyValue [⟨"user", "Q1"⟩],
               qaError := some "earlier failure" } : AppState).askQuestion
    ∧ (handleAskQuestion refPlatform
        { askQuestion := " \t ", qaMessages := historyValue [⟨"user", "Q1"⟩],
          qaError := some "earlier failure" }
        (.resolved { status := 200, body := .ok "null" })).2 = []
    ∧ (handleAskQuestion refPlatform
        { askQuestion := " \t ", qaMessages := historyValue [⟨"user", "Q1"⟩],
          qaError := some "earlier failure" }
        (.resolved { status := 200, body := .ok "null" })).1.qaMessages
      = historyValue [⟨"user", "Q1"⟩] :=
  ⟨by decide,
   congrArg Prod.snd
     (handleAskQuestion_blank refPlatform
        { askQuestion := " \t ", qaMessages := historyValue [⟨"user", "Q1"⟩],
          qaError := some "earlier failure" }
        (.resolved { status := 200, body := .ok "null" }) (by decide)).1,
   (handleAskQuestion_blank refPlatform
        { askQuestion := " \t ", qaMessages := historyValue [⟨"user", "Q1"⟩],
          qaError := some "earlier failure" }
        (.resolved { status := 200, body := .ok "null" }) (by decide)).2.2.1⟩

/-! ## Chat persistence -/

theorem clearSession_eq (P : Platform) (w : World) :
    clearSession P w
      = { state := { w.state with askQuestion := "", qaMessages := [], qaError := none },
          storage := some (P.jsonStringify (.arr [])) } := rfl

theorem clearSession_idempotent (P : Platform) (w : World) :
    clearSession P (clearSession P w) = clearSession P w := rfl

theorem clearSession_storage_ne_none (P : Platform) (w : World) :
    (handleClearAskSession w).storage = none ∧ (clearSession P w).storage ≠ none := by
  constructor
  · rfl
  · rw [clearSession_eq]
    simp

/-- C8, the divergence: clearing a session whose history `[{user, Q1}]` is
stored empties the history, the input and the Q&A error, and the handler
removes the key; but the auto-save effect that follows the history change
writes the serialised empty history, so the key is present afterwards (here
with the text "[]"), also after clearing twice. -/
theorem clearSession_leaves_key :
    (handleClearAskSession
        { state := { askQuestion := "next", qaMessages := historyValue [⟨"user", "Q1"⟩],
                     qaError := some "earlier failure" },
          storage := some (Ref.stringify (.arr (historyValue [⟨"user", "Q1"⟩]))) }).storage
      = none
    ∧ (clearSession refPlatform
        { state := { askQuestion := "next", qaMessages := historyValue [⟨"user", "Q1"⟩],
                     qaError := some "earlier failure" },
          storage := some (Ref.stringify (.arr (historyValue [⟨"user", "Q1"⟩]))) }).state.qaMessages
      = []
    ∧ (clearSession refPlatform
        { state := { askQuestion := "next", qaMessages := historyValue [⟨"user", "Q1"⟩],
                     qaError := some "earlier failure" },
          storage := some (Ref.stringify (.arr (historyValue [⟨"user", "Q1"⟩]))) }).state.askQuestion
      = ""
    ∧ (clearSession refPlatform
        { state := { askQuestion := "next", qaMessages := historyValue [⟨"user", "Q1"⟩],
                     qaError := some "earlier failure" },
          storage := some (Ref.stringify (.arr (historyValue [⟨"user", "Q1"⟩]))) }).state.qaError
      = none
    ∧ (clearSession refPlatform
        { state := { askQuestion := "next", qaMessages := historyValue [⟨"user", "Q1"⟩],
                     qaError := some "earlier failure" },
          storage := some (Ref.stringify (.arr (historyValue [⟨"user", "Q1"⟩]))) }).storage
      = some "[]"
    ∧ (clearSession refPlatform (clearSession refPlatform
        { state := { askQuestion := "next", qaMessages := historyValue [⟨"user", "Q1"⟩],
                     qaError := some "earlier failure" },
          storage := some (Ref.stringify (.arr (historyValue [⟨"user", "Q1"⟩]))) })).storage
      = some "[]" := by
  refine ⟨rfl, rfl, rfl, rfl, ?_, ?_⟩
  · show some (Ref.stringify (.arr [])) = some "[]"
    decide
  · show some (Ref.stringify (.arr [])) = some "[]"
    decide

theorem restoredHistory_none (P : Platform) : restoredHistory P none = none := rfl

theorem restoredHistory_array (P : Platform) (hempty : ∀ v, P.jsonParse "" ≠ .ok v)
    (t : String) (xs : List JsVal) (hp : P.jsonParse t = .ok (.arr xs)) :
    restoredHistory P (some t) = some xs := by
  have hne : t ≠ "" := by
    intro h0
    subst h0
    exact hempty _ hp
  simp [restoredHistory, JsVal.truthy, hne, safeJsonParse, hp]

theorem restoredHistory_error (P : Platform) (t : String) (e : JsError)
    (hp : P.jsonParse t = .error e) :
    restoredHistory P (some t) = none ∨ restoredHistory P (some t) = some [] := by
  by_cases hne : t = ""
  · left
    simp [restoredHistory, JsVal.truthy, hne]
  · right
    simp [restoredHistory, JsVal.truthy, hne, safeJsonParse, hp]

theorem restoredHistory_not_array (P : Platform) (t : String) (v : JsVal)
    (hp : P.jsonParse t = .ok v) (hv : v.isArray = false) :
    restoredHistory P (some t) = none := by
  by_cases hne : t = ""
  · simp [restoredHistory, JsVal.truthy, hne]
  · cases v with
    | arr xs => simp [JsVal.isArray] at hv
    | undefined => simp [restoredHistory, JsVal.truthy, hne, safeJsonParse, hp]
    | null => simp [restoredHistory, JsVal.truthy, hne, safeJsonParse, hp]
    | bool b => simp [restoredHistory, JsVal.truthy, hne, safeJsonParse, hp]
    | num x => simp [restoredHistory, JsVal.truthy, hne, safeJsonParse, hp]
    | str x => simp [restoredHistory, JsVal.truthy, hne, safeJsonParse, hp]
    | obj fs => simp [restoredHistory, JsVal.truthy, hne, safeJsonParse, hp]

theorem renderChatMessages_ok (P : Platform) (xs : List JsVal)
    (h : ∀ x ∈ xs, x.nullish = false) : renderChatMessages P xs = .ok () := by
  induction xs with
  | nil => rfl
  | cons x rest ih =>
    have hx : x.nullish = false := h x (by simp)
    have hrest := ih (fun y hy => h y (by simp [hy]))
    simp [renderChatMessages, renderChatMessage, Platform.getProp, hx, hrest]

theorem renderChatMessages_historyValue (P : Platform) (h : List ChatMessage) :
    renderChatMessages P (historyValue h) = .ok () := by
  apply renderChatMessages_ok
  intro x hx
  obtain ⟨m, _, rfl⟩ := List.mem_map.mp hx
  rfl

theorem refParse_empty (v : JsVal) : refPlatform.jsonParse "" ≠ .ok v := by
  intro h
  cases h

/-- Page load on well-formed or unusable storage: when the key is absent, the
text does not parse, or it parses to something that is not an array, the
component runs with the empty history; when it parses to an array without
`null` elements, the component runs with exactly that history.  No Q&A error
is set in any of these cases. -/
theorem startup_running (P : Platform) (hempty : ∀ v, P.jsonParse "" ≠ .ok v) :
    startup P none = .running { state := {}, storage := some (P.jsonStringify (.arr [])) }
    ∧ (∀ t xs, P.jsonParse t = .ok (.arr xs) → (∀ x ∈ xs, x.nullish = false) →
        startup P (some t)
          = .running { state := { qaMessages := xs },
                       storage := some (P.jsonStringify (.arr xs)) })
    ∧ (∀ t e, P.jsonParse t = .error e →
        startup P (some t)
          = .running { state := {}, storage := some (P.jsonStringify (.arr [])) })
    ∧ (∀ t v, P.jsonParse t = .ok v → v.isArray = false →
        startup P (some t)
          = .running { state := {}, storage := some (P.jsonStringify (.arr [])) }) := by
  refine ⟨?_, ?_, ?_, ?_⟩
  · simp [startup, restoredHistory_none, autoSave]
  · intro t xs hp hx
    simp [startup, restoredHistory_array P hempty t xs hp, renderChatMessages_ok P xs hx,
      autoSave]
  · intro t e hp
    rcases restoredHistory_error P t e hp with h | h
    · simp [startup, h, autoSave]
    · simp [startup, h, autoSave, renderChatMessages]
  · intro t v hp hv
    simp [startup, restoredHistory_not_array P t v hp hv, autoSave]

/-- C9, the divergence: page load with the stored text `[null]`.  The text
parses to an array, so the restore effect passes `[null]` to `setQaMessages`;
the render that follows reads `msg.role` of `null`, which throws, and the
component tree is unmounted.  Storage is left with the empty history written
by the auto-save effect of the first render. -/
theorem startup_null_element_unmounts :
    refPlatform.jsonParse "[null]" = .ok (.arr [.null])
    ∧ restoredHistory refPlatform (some "[null]") = some [.null]
    ∧ renderChatMessages refPlatform [.null] = .error ⟨"Cannot use property role"⟩
    ∧ startup refPlatform (some "[null]")
        = .unmounted ⟨"Cannot use property role"⟩ (some "[]") := by
  have hp : refPlatform.jsonParse "[null]" = .ok (.arr [.null]) := rfl
  have hr : restoredHistory refPlatform (some "[null]") = some [.null] := by
    simp [restoredHistory, JsVal.truthy, safeJsonParse, hp]
  have hrender : renderChatMessages refPlatform [.null]
      = .error ⟨"Cannot use property role"⟩ := rfl
  refine ⟨hp, hr, hrender, ?_⟩
  have hs : refPlatform.jsonStringify (.arr []) = "[]" := by decide
  simp [startup, hr, hrender, autoSave, hs]

theorem handleSaveChats_world (P : Platform) (exportedAt : String) (w : World) :
    (handleSaveChats P exportedAt w).1 = w := by
  unfold handleSaveChats
  cases toChatTranscript P exportedAt w.state.qaMessages <;> rfl

theorem startup_of_array (P : Platform) (t : String) (xs : List JsVal) (hne : t ≠ "")
    (hp : P.jsonParse t = .ok (.arr xs)) (hrender : renderChatMessages P xs = .ok ()) :
    startup P (some t)
      = .running { state := { qaMessages := xs },
                   storage := some (P.jsonStringify (.arr xs)) } := by
  have hr : restoredHistory P (some t) = some xs := by
    simp [restoredHistory, JsVal.truthy, hne, safeJsonParse, hp]
  simp [startup, hr, hrender, autoSave]

/-- C10: persistence round trip.  Let `h` be a history of text messages on
which the platform's `JSON.parse` inverts `JSON.stringify` (whose output for an
array is never the empty text).  The auto-save stores the serialised history
under the chat key; exporting the transcript changes neither the state nor the
stored value; and a page load that finds this stored value ends with the
component running on exactly the history `h`, in content and order (every
other cell in its initial value), and with the same text stored again. -/
theorem chat_persistence_roundtrip (P : Platform) (h : List ChatMessage) (w : World)
    (exportedAt : String) (hw : w.state.qaMessages = historyValue h)
    (hne : P.jsonStringify (.arr (historyValue h)) ≠ "")
    (hrt : P.jsonParse (P.jsonStringify (.arr (historyValue h))) = .ok (.arr (historyValue h))) :
    (autoSave P w).storage = some (P.jsonStringify (.arr (historyValue h)))
    ∧ (autoSave P w).state = w.state
    ∧ (handleSaveChats P exportedAt (autoSave P w)).1 = autoSave P w
    ∧ startup P (autoSave P w).storage
        = .running { state := { qaMessages := historyValue h },
                     storage := (autoSave P w).storage }
    ∧ startup P (handleSaveChats P exportedAt (autoSave P w)).1.storage
        = .running { state := { qaMessages := historyValue h },
                     storage := (autoSave P w).storage } := by
  have hs : (autoSave P w).storage = some (P.jsonStringify (.arr (historyValue h))) := by
    simp [autoSave, hw]
  have hst := startup_of_array P _ _ hne hrt (renderChatMessages_historyValue P h)
  refine ⟨hs, rfl, handleSaveChats_world P exportedAt _, ?_, ?_⟩
  · rw [hs, hst]
  · rw [handleSaveChats_world, hs, hst]

theorem chat_persistence_roundtrip_witness :
    startup refPlatform
        (handleSaveChats refPlatform "2026-01-02T03:04:05.678Z"
          (autoSave refPlatform
            { state := { qaMessages := historyValue [⟨"user", "Q1"⟩] },
              storage := none })).1.storage
      = .running { state := { qaMessages := historyValue [⟨"user", "Q1"⟩] },
                   storage := (autoSave refPlatform
                     { state := { qaMessages := historyValue [⟨"user", "Q1"⟩] },
                       storage := none }).storage }
    ∧ (autoSave refPlatform
        { state := { qaMessages := historyValue [⟨"user", "Q1"⟩] },
          storage := none }).storage
      = some (Ref.stringify (.arr (historyValue [⟨"user", "Q1"⟩]))) :=
  ⟨(chat_persistence_roundtrip refPlatform [⟨"user", "Q1"⟩]
      { state := { qaMessages := historyValue [⟨"user", "Q1"⟩] }, storage := none }
      "2026-01-02T03:04:05.678Z" rfl (by decide) rfl).2.2.2.2,
   (chat_persistence_roundtrip refPlatform [⟨"user", "Q1"⟩]
      { state := { qaMessages := historyValue [⟨"user", "Q1"⟩] }, storage := none }
      "2026-01-02T03:04:05.678Z" rfl (by decide) rfl).1⟩

/-! ## The reference codec

The hypotheses of the persistence round trip are met by the reference
platform for every history of text messages. -/

namespace Ref

theorem hexVal_hexDigit : ∀ k, k < 16 → hexVal (hexDigit k) = some k := by
  decide

theorem control_char_code (c : Char) :
    Char.ofNat (c.toNat / 16 * 16 + c.toNat % 16) = c := by
  have : c.toNat / 16 * 16 + c.toNat % 16 = c.toNat := by omega
  rw [this]
  exact Char.ofNat_toNat c

theorem stringBody_cons_plain (c : Char) (tl : List Char) (h1 : c ≠ dquote)
    (h2 : c ≠ backslash) (h3 : ¬ c.toNat < 32) :
    stringBody (c :: tl) = (stringBody tl).map (fun r => (c :: r.1, r.2)) := by
  rw [stringBody.eq_def]
  simp only [h1, h2, h3, if_false]

theorem stringBody_simple_escape (e ch : Char) (tl : List Char) (he : e ≠ 'u')
    (hu : unescape e = some ch) :
    stringBody (backslash :: e :: tl) = (stringBody tl).map (fun r => (ch :: r.1, r.2)) := by
  have hb : backslash ≠ dquote := by decide
  rw [stringBody.eq_def]
  simp only [hb, he, hu, if_false, if_true]

theorem stringBody_escapeChar (c : Char) (tl : List Char) :
    stringBody (escapeChar c ++ tl) = (stringBody tl).map (fun r => (c :: r.1, r.2)) := by
  unfold escapeChar
  split
  · rename_i h
    subst h
    exact stringBody_simple_escape dquote dquote tl (by decide) (by decide)
  · split
    · rename_i h
      subst h
      exact stringBody_simple_escape backslash backslash tl (by decide) (by decide)
    · split
      · rename_i h
        subst h
        exact stringBody_simple_escape 'n' _ tl (by decide) (by decide)
      · split
        · rename_i h
          subst h
          exact stringBody_simple_escape 'r' _ tl (by decide) (by decide)
        · split
          · rename_i h
            subst h
            exact stringBody_simple_escape 't' _ tl (by decide) (by decide)
          · split
            · rename_i h1 h2 h3 h4 h5 h
              have hd1 : c.toNat / 16 < 16 := by omega
              have hd2 : c.toNat % 16 < 16 := by omega
              have e1 := hexVal_hexDigit _ hd1
              have e2 := hexVal_hexDigit _ hd2
              have e0 : hexVal '0' = some 0 := by decide
              have hb : backslash ≠ dquote := by decide
              simp only [List.cons_append, List.nil_append]
              rw [stringBody.eq_def]
              simp only [hb, if_false, if_true, e0, e1, e2]
              simp [control_char_code c]
            · rename_i h1 h2 h3 h4 h5 h
              exact stringBody_cons_plain c tl h1 h2 h

theorem stringBody_escape (l rest : List Char) :
    stringBody (l.flatMap escapeChar ++ dquote :: rest) = some (l, rest) := by
  induction l with
  | nil =>
    rw [List.flatMap_nil, List.nil_append, stringBody.eq_def]
    simp
  | cons c tl ih =>
    rw [List.flatMap_cons, List.append_assoc, stringBody_escapeChar, ih]
    rfl

theorem skipWs_cons (c : Char) (tl : List Char) (h : isWs c = false) :
    skipWs (c :: tl) = c :: tl := by
  simp [skipWs, List.dropWhile, h]

theorem quote_append (s : String) (rest : List Char) :
    quote s ++ rest = dquote :: (s.data.flatMap escapeChar ++ dquote :: rest) := by
  simp [quote]

theorem value_string (f : Nat) (s : String) (rest : List Char) :
    value (f + 1) (quote s ++ rest) = some (.str s, rest) := by
  rw [quote_append, value]
  rw [skipWs_cons _ _ (by decide)]
  have h1 : "null".data.isPrefixOf (dquote :: (s.data.flatMap escapeChar ++ dquote :: rest))
      = false := rfl
  have h2 : "true".data.isPrefixOf (dquote :: (s.data.flatMap escapeChar ++ dquote :: rest))
      = false := rfl
  have h3 : "false".data.isPrefixOf (dquote :: (s.data.flatMap escapeChar ++ dquote :: rest))
      = false := rfl
  simp only [h1, h2, h3, stringBody_escape]
  simp

theorem valText_message (m : ChatMessage) :
    valText m.toJsVal
      = lbrace :: (quote "role" ++ ':' :: (quote m.role ++ ',' ::
          (quote "content" ++ ':' :: (quote m.content ++ [rbrace])))) := by
  simp [ChatMessage.toJsVal, valText, fieldTexts, commaJoin]

theorem members_content (f : Nat) (c : String) (rest : List Char) :
    members (f + 2) (quote "content" ++ ':' :: (quote c ++ rbrace :: rest))
      = some ([("content", .str c)], rest) := by
  rw [quote_append, members]
  rw [skipWs_cons _ _ (by decide)]
  simp only [if_true, stringBody_escape]
  rw [skipWs_cons _ _ (by decide)]
  simp only [if_true, value_string]
  rw [skipWs_cons _ _ (by decide)]
  have h1 : rbrace ≠ ',' := by decide
  simp [h1]

theorem members_message (f : Nat) (m : ChatMessage) (rest : List Char) :
    members (f + 3) (quote "role" ++ ':' :: (quote m.role ++ ',' ::
        (quote "content" ++ ':' :: (quote m.content ++ rbrace :: rest))))
      = some ([("role", .str m.role), ("content", .str m.content)], rest) := by
  rw [quote_append, members]
  rw [skipWs_cons _ _ (by decide)]
  simp only [if_true, stringBody_escape]
  rw [skipWs_cons _ _ (by decide)]
  simp only [if_true, value_string]
  rw [skipWs_cons _ _ (by decide)]
  simp only [if_true, members_content]
  simp

theorem value_message (f : Nat) (m : ChatMessage) (rest : List Char) :
    value (f + 4) (valText m.toJsVal ++ rest) = some (m.toJsVal, rest) := by
  rw [valText_message, value]
  simp only [List.cons_append, List.append_assoc, List.nil_append]
  rw [skipWs_cons _ _ (by decide)]
  have h1 : ∀ tl, "null".data.isPrefixOf (lbrace :: tl) = false := fun _ => rfl
  have h2 : ∀ tl, "true".data.isPrefixOf (lbrace :: tl) = false := fun _ => rfl
  have h3 : ∀ tl, "false".data.isPrefixOf (lbrace :: tl) = false := fun _ => rfl
  have hq : lbrace ≠ dquote := by decide
  have hb : lbrace ≠ '[' := by decide
  simp only [h1, h2, h3, hq, hb, if_false, if_true]
  rw [quote_append, skipWs_cons _ _ (by decide)]
  have hd : dquote ≠ rbrace := by decide
  simp only [hd, if_false]
  rw [← quote_append, members_message]
  simp [ChatMessage.toJsVal]

theorem elemTexts_history (h : List ChatMessage) :
    elemTexts (historyValue h) = h.map (fun m => valText m.toJsVal) := by
  induction h with
  | nil => simp [historyValue, elemTexts]
  | cons m tl ih =>
    simp only [historyValue, List.map_cons, elemTexts] at ih ⊢
    rw [ih]

theorem valText_message_cons (m : ChatMessage) :
    ∃ tl, valText m.toJsVal = lbrace :: tl :=
  ⟨_, valText_message m⟩

theorem elements_history (tl : List ChatMessage) :
    ∀ (f : Nat) (m : ChatMessage) (rest : List Char),
      elements (f + tl.length + 5)
          (commaJoin ((m :: tl).map (fun x => valText x.toJsVal)) ++ ']' :: rest)
        = some (historyValue (m :: tl), rest) := by
  induction tl with
  | nil =>
    intro f m rest
    simp only [List.map_cons, List.map_nil, commaJoin, List.length_nil, Nat.add_zero]
    rw [elements, value_message]
    simp only []
    rw [skipWs_cons _ _ (by decide)]
    have h1 : (']' : Char) ≠ ',' := by decide
    simp [h1, historyValue]
  | cons m2 tl ih =>
    intro f m rest
    simp only [List.map_cons, commaJoin, List.length_cons, List.append_assoc,
      List.cons_append]
    have hf : f + (tl.length + 1) + 5 = (f + tl.length + 1 + 4) + 1 := by omega
    rw [hf, elements, value_message]
    simp only []
    rw [skipWs_cons _ _ (by decide)]
    have hf2 : f + tl.length + 1 + 4 = f + tl.length + 5 := by omega
    have ih2 := ih f m2 rest
    simp only [List.map_cons] at ih2
    simp only [if_true, hf2, ih2]
    simp [historyValue]

theorem length_le_commaJoin (l : List (List Char)) (hl : ∀ x ∈ l, 1 ≤ x.length) :
    l.length ≤ (commaJoin l).length := by
  induction l with
  | nil => simp [commaJoin]
  | cons x tl ih =>
    cases tl with
    | nil =>
      simp only [commaJoin, List.length_cons, List.length_nil]
      exact hl x (by simp)
    | cons y tl2 =>
      simp only [commaJoin, List.length_cons, List.length_append]
      have h1 := ih (fun z hz => hl z (by simp at hz ⊢; right; exact hz))
      simp only [List.length_cons] at h1
      omega

theorem commaJoin_cons (x : List Char) (l : List (List Char)) :
    ∃ r, commaJoin (x :: l) = x ++ r := by
  cases l with
  | nil => exact ⟨[], by simp [commaJoin]⟩
  | cons y tl => exact ⟨',' :: commaJoin (y :: tl), rfl⟩

theorem value_history (f : Nat) (h : List ChatMessage) :
    value (f + h.length + 5) (valText (.arr (historyValue h)))
      = some (.arr (historyValue h), []) := by
  have hf : f + h.length + 5 = (f + h.length + 4) + 1 := by omega
  rw [hf, valText, elemTexts_history, value]
  rw [skipWs_cons _ _ (by decide)]
  have h1 : ∀ tl, "null".data.isPrefixOf ('[' :: tl) = false := fun _ => rfl
  have h2 : ∀ tl, "true".data.isPrefixOf ('[' :: tl) = false := fun _ => rfl
  have h3 : ∀ tl, "false".data.isPrefixOf ('[' :: tl) = false := fun _ => rfl
  have hq : ('[' : Char) ≠ dquote := by decide
  simp only [h1, h2, h3, hq, if_false, if_true]
  cases h with
  | nil =>
    simp only [List.map_nil, commaJoin, List.nil_append]
    rw [skipWs_cons _ _ (by decide)]
    simp [historyValue]
  | cons m tl =>
    have he := elements_history tl f m []
    have hf3 : f + (m :: tl).length + 4 = f + tl.length + 5 := by
      simp only [List.length_cons]
      omega
    rw [hf3]
    obtain ⟨body, hbody⟩ := valText_message_cons m
    obtain ⟨r, hr⟩ := commaJoin_cons (valText m.toJsVal) (tl.map (fun x => valText x.toJsVal))
    have hX : commaJoin ((m :: tl).map (fun x => valText x.toJsVal)) ++ [']']
        = lbrace :: (body ++ r ++ [']']) := by
      rw [List.map_cons, hr, hbody]
      simp
    rw [hX] at he ⊢
    rw [skipWs_cons _ _ (by decide)]
    have hne : lbrace ≠ ']' := by decide
    simp only [hne, if_false, he]
    simp

/-- The reference codec reads back every history of text messages it wrote. -/
theorem parse_stringify_history (h : List ChatMessage) :
    parse (stringify (.arr (historyValue h))) = .ok (.arr (historyValue h)) := by
  unfold parse stringify
  have hlen : h.length + 2 ≤ (valText (.arr (historyValue h))).length := by
    rw [valText, elemTexts_history]
    have := length_le_commaJoin (h.map (fun m => valText m.toJsVal)) (by
      intro x hx
      obtain ⟨m, _, rfl⟩ := List.mem_map.mp hx
      rw [valText_message]
      simp)
    simp only [List.length_map] at this
    simp only [List.length_cons, List.length_append, List.length_nil]
    omega
  obtain ⟨f, hf⟩ : ∃ f, 2 * (valText (.arr (historyValue h))).length + 2 = f + h.length + 5 :=
    ⟨2 * (valText (.arr (historyValue h))).length + 2 - h.length - 5, by omega⟩
  simp only []
  rw [hf, value_history]
  simp [skipWs]

theorem stringify_array_ne_empty (xs : List JsVal) : stringify (.arr xs) ≠ "" := by
  intro h
  have := congrArg String.data h
  simp [stringify, valText] at this

end Ref

/-! ## Removal -/

theorem filterWithIndex_ne {α : Type} (index : Nat) (l : List α) :
    ∀ start, filterWithIndex (fun (_ : α) i => i != index) start l
      = if index < start then l else l.eraseIdx (index - start) := by
  induction l with
  | nil =>
    intro start
    simp [filterWithIndex]
  | cons x xs ih =>
    intro start
    rw [filterWithIndex, ih (start + 1)]
    by_cases h1 : index < start
    · have h2 : index < start + 1 := by omega
      have h3 : start ≠ index := by omega
      simp [h1, h2, h3]
    · by_cases h4 : start = index
      · subst h4
        simp
      · have h5 : ¬ index < start + 1 := by omega
        have h6 : index - start = (index - (start + 1)) + 1 := by omega
        simp only [h1, h5, if_false, bne_iff_ne, ne_eq, h4, not_false_eq_true, if_true]
        rw [h6, List.eraseIdx_cons_succ]

theorem removeFile_eq (s : AppState) (index : Nat) :
    removeFile s index = { s with uploadedFiles := s.uploadedFiles.eraseIdx index } := by
  simp [removeFile, filterWithIndex_ne]

/-- C11: for an index inside the staged list, `removeFile` removes exactly the
document at that position: the new list is `take i ++ drop (i + 1)`, it is one
shorter, the documents before position `i` stay where they were and each later
document moves down by one position; nothing else in the state changes. -/
theorem removeFile_spec (s : AppState) (i : Nat) (hi : i < s.uploadedFiles.length) :
    removeFile s i
        = { s with uploadedFiles := s.uploadedFiles.take i ++ s.uploadedFiles.drop (i + 1) }
    ∧ (removeFile s i).uploadedFiles.length = s.uploadedFiles.length - 1
    ∧ (∀ j, j < i → (removeFile s i).uploadedFiles[j]? = s.uploadedFiles[j]?)
    ∧ (∀ j, i ≤ j → (removeFile s i).uploadedFiles[j]? = s.uploadedFiles[j + 1]?) := by
  rw [removeFile_eq]
  refine ⟨?_, ?_, ?_, ?_⟩
  · rw [List.eraseIdx_eq_take_drop_succ]
  · exact List.length_eraseIdx_of_lt hi
  · intro j hj
    exact List.getElem?_eraseIdx_of_lt _ _ _ hj
  · intro j hj
    exact List.getElem?_eraseIdx_of_ge _ _ _ hj

theorem removeFile_spec_witness :
    (removeFile { uploadedFiles := [⟨"a.pdf", 10, 1⟩, ⟨"b.txt", 20, 2⟩, ⟨"c.eml", 30, 3⟩] }
        1).uploadedFiles
      = [⟨"a.pdf", 10, 1⟩, ⟨"c.eml", 30, 3⟩]
    ∧ (removeFile { uploadedFiles := [⟨"a.pdf", 10, 1⟩, ⟨"b.txt", 20, 2⟩, ⟨"c.eml", 30, 3⟩] }
        1).uploadedFiles.length = 3 - 1 :=
  ⟨congrArg AppState.uploadedFiles
     (removeFile_spec
       { uploadedFiles := [⟨"a.pdf", 10, 1⟩, ⟨"b.txt", 20, 2⟩, ⟨"c.eml", 30, 3⟩] } 1
       (by decide)).1,
   (removeFile_spec
       { uploadedFiles := [⟨"a.pdf", 10, 1⟩, ⟨"b.txt", 20, 2⟩, ⟨"c.eml", 30, 3⟩] } 1
       (by decide)).2.1⟩

/-- C12 as stated fails: dropping the same document twice stages it twice
(`addFiles` has no duplicate check), and after removing position 0 the
document is still in the store. -/
theorem removeFile_duplicate_counterexample :
    (runEvents refPlatform {}
        [.drop [⟨"a.pdf", 10, 1⟩], .drop [⟨"a.pdf", 10, 1⟩]]).uploadedFiles
      = [⟨"a.pdf", 10, 1⟩, ⟨"a.pdf", 10, 1⟩]
    ∧ (removeFile (runEvents refPlatform {}
        [.drop [⟨"a.pdf", 10, 1⟩], .drop [⟨"a.pdf", 10, 1⟩]]) 0).uploadedFiles
      = [⟨"a.pdf", 10, 1⟩]
    ∧ (⟨"a.pdf", 10, 1⟩ : JsFile) ∈ (removeFile (runEvents refPlatform {}
        [.drop [⟨"a.pdf", 10, 1⟩], .drop [⟨"a.pdf", 10, 1⟩]]) 0).uploadedFiles := by
  have h1 : (runEvents refPlatform {}
        [.drop [⟨"a.pdf", 10, 1⟩], .drop [⟨"a.pdf", 10, 1⟩]]).uploadedFiles
      = [⟨"a.pdf", 10, 1⟩, ⟨"a.pdf", 10, 1⟩] := by
    simp [runEvents, applyEvent, handleDrop, addFiles, maxSize_eq]
  have h2 : (removeFile (runEvents refPlatform {}
        [.drop [⟨"a.pdf", 10, 1⟩], .drop [⟨"a.pdf", 10, 1⟩]]) 0).uploadedFiles
      = [⟨"a.pdf", 10, 1⟩] := by
    rw [removeFile_eq]
    show List.eraseIdx _ 0 = _
    rw [h1]
    rfl
  refine ⟨h1, h2, ?_⟩
  rw [h2]
  simp

theorem count_eraseIdx_add (l : List JsFile) (i : Nat) (hi : i < l.length) (doc : JsFile) :
    (l.eraseIdx i).count doc + (if l[i] = doc then 1 else 0) = l.count doc := by
  induction l generalizing i with
  | nil => simp at hi
  | cons x xs ih =>
    cases i with
    | zero =>
      simp only [List.eraseIdx_cons_zero, List.getElem_cons_zero, List.count_cons, beq_iff_eq]
    | succ k =>
      have hk : k < xs.length := by simpa using hi
      have := ih k hk
      simp only [List.eraseIdx_cons_succ, List.getElem_cons_succ, List.count_cons]
      omega

/-- C12, amended: `removeFile` at an index inside the staged list takes out
exactly one occurrence of the document at that position.  When that document
is staged only once (in particular when no document is staged twice) it is no
longer present afterwards; a document staged several times stays present. -/
theorem removeFile_removes_one (s : AppState) (i : Nat) (hi : i < s.uploadedFiles.length) :
    (removeFile s i).uploadedFiles.count s.uploadedFiles[i] + 1
        = s.uploadedFiles.count s.uploadedFiles[i]
    ∧ (s.uploadedFiles.count s.uploadedFiles[i] = 1 →
        s.uploadedFiles[i] ∉ (removeFile s i).uploadedFiles)
    ∧ (s.uploadedFiles.Nodup → s.uploadedFiles[i] ∉ (removeFile s i).uploadedFiles)
    ∧ (∀ doc, doc ≠ s.uploadedFiles[i] →
        (removeFile s i).uploadedFiles.count doc = s.uploadedFiles.count doc) := by
  rw [removeFile_eq]
  have hc := count_eraseIdx_add s.uploadedFiles i hi
  have h1 : (s.uploadedFiles.eraseIdx i).count s.uploadedFiles[i] + 1
      = s.uploadedFiles.count s.uploadedFiles[i] := by
    have := hc s.uploadedFiles[i]
    simpa using this
  refine ⟨h1, ?_, ?_, ?_⟩
  · intro hone
    show s.uploadedFiles[i] ∉ s.uploadedFiles.eraseIdx i
    rw [← List.count_eq_zero]
    omega
  · intro hnd
    show s.uploadedFiles[i] ∉ s.uploadedFiles.eraseIdx i
    have hone : s.uploadedFiles.count s.uploadedFiles[i] = 1 :=
      List.count_eq_one_of_mem hnd (List.getElem_mem _)
    rw [← List.count_eq_zero]
    omega
  · intro doc hdoc
    have := hc doc
    have hne : ¬ s.uploadedFiles[i] = doc := fun h => hdoc h.symm
    simpa [hne] using this

theorem removeFile_removes_one_witness :
    (⟨"b.txt", 20, 2⟩ : JsFile)
      ∉ (removeFile { uploadedFiles := [⟨"a.pdf", 10, 1⟩, ⟨"b.txt", 20, 2⟩] } 1).uploadedFiles :=
  (removeFile_removes_one { uploadedFiles := [⟨"a.pdf", 10, 1⟩, ⟨"b.txt", 20, 2⟩] } 1
    (by decide)).2.2.1 (by decide)

/-! ## Store invariant -/

theorem addFiles_withinSizeLimit (s : AppState) (files : List JsFile)
    (h : withinSizeLimit s) : withinSizeLimit (addFiles s files).1 := by
  intro f hf
  simp only [addFiles, filter_valid] at hf
  rcases List.mem_append.mp hf with h1 | h2
  · exact h f h1
  · have := (List.mem_filter.mp h2).2
    simpa using this

theorem handleSubmitStart_files (P : Platform) (s : AppState) :
    (handleSubmitStart P s).1.uploadedFiles = s.uploadedFiles := by
  unfold handleSubmitStart
  simp only []
  split
  · rfl
  · split <;> rfl

theorem handleSubmitFinish_files (P : Platform) (s : AppState) (o : FetchOutcome) :
    (handleSubmitFinish P s o).uploadedFiles = s.uploadedFiles := by
  unfold handleSubmitFinish
  cases o with
  | rejected e => rfl
  | resolved res =>
    simp only []
    split
    · split <;> rfl
    · split <;> rfl

theorem processRelevanceStart_files (P : Platform) (s : AppState) :
    (processRelevanceStart P s).1.uploadedFiles = s.uploadedFiles := by
  unfold processRelevanceStart
  simp only []
  split
  · rfl
  · split <;> rfl

theorem processRelevanceFinish_files (P : Platform) (s : AppState) (o : FetchOutcome) :
    (processRelevanceFinish P s o).uploadedFiles = s.uploadedFiles := by
  unfold processRelevanceFinish
  simp only []
  split <;> rfl

theorem handleAskQuestionStart_files (P : Platform) (s : AppState) :
    (handleAskQuestionStart P s).1.uploadedFiles = s.uploadedFiles := by
  unfold handleAskQuestionStart
  simp only []
  split <;> rfl

theorem handleAskQuestionFinish_files (P : Platform) (s : AppState) (o : FetchOutcome) :
    (handleAskQuestionFinish P s o).uploadedFiles = s.uploadedFiles := by
  unfold handleAskQuestionFinish
  simp only []
  split <;> rfl

theorem handleInputChange_files (s : AppState) (field : MetadataField) (value : String) :
    (handleInputChange s field value).uploadedFiles = s.uploadedFiles := by
  cases field <;> rfl

theorem applyEvent_withinSizeLimit (P : Platform) (s : AppState) (e : UiEvent)
    (h : withinSizeLimit s) : withinSizeLimit (applyEvent P s e) := by
  cases e with
  | fileInput files =>
    cases files with
    | none => exact h
    | some fs => exact addFiles_withinSizeLimit s fs h
  | drop files =>
    simp only [applyEvent, handleDrop]
    split
    · exact addFiles_withinSizeLimit _ files h
    · exact h
  | dragOver => exact h
  | dragLeave => exact h
  | remove index =>
    intro f hf
    simp only [applyEvent, removeFile_eq] at hf
    exact h f (List.mem_of_mem_eraseIdx hf)
  | input field value =>
    intro f hf
    simp only [applyEvent, handleInputChange_files] at hf
    exact h f hf
  | submitStart =>
    intro f hf
    simp only [applyEvent, handleSubmitStart_files] at hf
    exact h f hf
  | submitSettled o =>
    intro f hf
    simp only [applyEvent, handleSubmitFinish_files] at hf
    exact h f hf
  | relevanceStart =>
    intro f hf
    simp only [applyEvent, processRelevanceStart_files] at hf
    exact h f hf
  | relevanceSettled o =>
    intro f hf
    simp only [applyEvent, processRelevanceFinish_files] at hf
    exact h f hf
  | toggle key => exact h
  | askStart =>
    intro f hf
    simp only [applyEvent, handleAskQuestionStart_files] at hf
    exact h f hf
  | askSettled o =>
    intro f hf
    simp only [applyEvent, handleAskQuestionFinish_files] at hf
    exact h f hf

theorem runEvents_withinSizeLimit (P : Platform) (events : List UiEvent) :
    ∀ s, withinSizeLimit s → withinSizeLimit (runEvents P s events) := by
  induction events with
  | nil =>
    intro s h
    exact h
  | cons e es ih =>
    intro s h
    exact ih _ (applyEvent_withinSizeLimit P s e h)

/-- C13: starting from the initial (empty) store, after any finite sequence of
events (files from the picker or a drop, removals, analysis and relevance
submissions and their settling in any order, and every other handler), every
staged document has at most 104,857,600 bytes: an oversized document never
enters the store. -/
theorem staged_size_invariant (P : Platform) (events : List UiEvent) :
    ∀ f ∈ (runEvents P {} events).uploadedFiles, f.size ≤ 104857600 := by
  apply runEvents_withinSizeLimit P events {}
  intro f hf
  simp at hf

theorem staged_size_invariant_witness :
    (⟨"a.pdf", 104857600, 1⟩ : JsFile)
      ∈ (runEvents refPlatform {}
          [.drop [⟨"a.pdf", 104857600, 1⟩, ⟨"big.pdf", 104857601, 2⟩],
           .input .matterOverview "Lease dispute", .submitStart,
           .fileInput (some [⟨"b.txt", 20, 3⟩]), .submitSettled (.rejected ⟨"offline"⟩),
           .relevanceStart, .remove 1,
           .relevanceSettled (.resolved { status := 500, body := .ok "" })]).uploadedFiles
    ∧ (⟨"a.pdf", 104857600, 1⟩ : JsFile).size ≤ 104857600 := by
  have hmem : (⟨"a.pdf", 104857600, 1⟩ : JsFile)
      ∈ (runEvents refPlatform {}
          [.drop [⟨"a.pdf", 104857600, 1⟩, ⟨"big.pdf", 104857601, 2⟩],
           .input .matterOverview "Lease dispute", .submitStart,
           .fileInput (some [⟨"b.txt", 20, 3⟩]), .submitSettled (.rejected ⟨"offline"⟩),
           .relevanceStart, .remove 1,
           .relevanceSettled (.resolved { status := 500, body := .ok "" })]).uploadedFiles := by
    decide
  exact ⟨hmem, staged_size_invariant refPlatform _ _ hmem⟩

/-! ## Relevance classification -/

theorem strOr_right_empty (a : String) : strOr a "" = a := by
  unfold strOr
  split
  · rfl
  · rename_i h
    simp at h
    exact h.symm

theorem or_empty_of_arr (v : JsVal) (xs : List JsVal) (h : v = .arr xs) :
    v.or (.arr []) = .arr xs := by
  subst h
  rfl

theorem or_empty_of_nullish (v : JsVal) (h : v.nullish = true) : v.or (.arr []) = .arr [] := by
  cases v <;> simp [JsVal.nullish] at h <;> rfl

theorem or_empty_ne_undefined (v : JsVal) : v.or (.arr []) ≠ .undefined := by
  unfold JsVal.or
  split
  · rename_i h
    intro hv
    rw [hv] at h
    simp [JsVal.truthy] at h
  · intro hv
    cases hv

theorem processRelevanceStart_valid (P : Platform) (s : AppState)
    (hov : ¬ isBlank s.formData.matterOverview) (hdocs : s.uploadedFiles ≠ []) :
    processRelevanceStart P s
      = ({ s with isRelevanceLoading := true, relevanceError := none, expandedFiles := [],
                  relevanceResults := none },
         some { url := API_BASE ++ "/api/relevance-check", method := "POST",
                body := .form ([FormPart.text "criteria" (jsTrim s.formData.matterOverview),
                    FormPart.text "metadata" (P.jsonStringify s.formData.toJsVal)]
                  ++ s.uploadedFiles.map (FormPart.file "files")) }) := by
  have ht := truthy_trim_of_not_blank _ hov
  have hl : s.uploadedFiles.length ≠ 0 := by
    intro h0
    exact hdocs (List.length_eq_zero.mp h0)
  simp [processRelevanceStart, strOr_right_empty, hl, ht]

/-- C15: when the case summary is blank or no document is staged,
`processRelevance` issues no request and only sets the relevance error, to a
non-empty validation message (the summary message when the summary is blank,
otherwise the document message).  The checking flag, the previous relevance
result, the expansion state, the analysis error and the analysis result, like
every other part of the state, are unchanged. -/
theorem processRelevance_preconditions (P : Platform) (s : AppState) (o : FetchOutcome)
    (h : isBlank s.formData.matterOverview ∨ s.uploadedFiles = []) :
    (processRelevance P s o).2 = []
    ∧ (processRelevanceStart P s).2 = none
    ∧ (processRelevance P s o).1
        = { s with relevanceError := some (if isBlank s.formData.matterOverview
            then "Case Summary is required for relevance check."
            else "Please upload at least one document before running relevance check.") }
    ∧ (∃ m, (processRelevance P s o).1.relevanceError = some m ∧ m ≠ "")
    ∧ (processRelevance P s o).1.isRelevanceLoading = s.isRelevanceLoading
    ∧ (processRelevance P s o).1.relevanceResults = s.relevanceResults
    ∧ (processRelevance P s o).1.expandedFiles = s.expandedFiles
    ∧ (processRelevance P s o).1.errorMsg = s.errorMsg
    ∧ (processRelevance P s o).1.result = s.result := by
  have hs : processRelevanceStart P s
      = ({ s with relevanceError := some (if isBlank s.formData.matterOverview
            then "Case Summary is required for relevance check."
            else "Please upload at least one document before running relevance check.") },
         none) := by
    unfold processRelevanceStart
    by_cases hb : isBlank s.formData.matterOverview
    · have ht := truthy_trim_of_blank _ hb
      simp [strOr_right_empty, ht, hb]
    · have ht := truthy_trim_of_not_blank _ hb
      have hl : s.uploadedFiles = [] := by
        rcases h with h1 | h2
        · exact absurd h1 hb
        · exact h2
      simp [strOr_right_empty, ht, hb, hl]
  have hh : processRelevance P s o
      = ({ s with relevanceError := some (if isBlank s.formData.matterOverview
            then "Case Summary is required for relevance check."
            else "Please upload at least one document before running relevance check.") },
         []) := by
    simp [processRelevance, hs]
  refine ⟨?_, ?_, ?_, ?_, ?_, ?_, ?_, ?_, ?_⟩
  · rw [hh]
  · rw [hs]
  · rw [hh]
  · rw [hh]
    refine ⟨_, rfl, ?_⟩
    split <;> decide
  all_goals rw [hh]

theorem processRelevance_preconditions_witness :
    (processRelevance refPlatform
        { uploadedFiles := [⟨"lease.pdf", 2048, 1⟩], formData := { matterOverview := " \t" },
          relevanceResults := some ⟨.arr [], .arr [], .arr [], .arr [], .arr []⟩,
          expandedFiles := [("Highly Relevant", true)] }
        (.resolved { status := 200, body := .ok "null" })).2 = []
    ∧ (processRelevance refPlatform
        { uploadedFiles := [⟨"lease.pdf", 2048, 1⟩], formData := { matterOverview := " \t" },
          relevanceResults := some ⟨.arr [], .arr [], .arr [], .arr [], .arr []⟩,
          expandedFiles := [("Highly Relevant", true)] }
        (.resolved { status := 200, body := .ok "null" })).1.expandedFiles
      = [("Highly Relevant", true)] :=
  ⟨(processRelevance_preconditions refPlatform
      { uploadedFiles := [⟨"lease.pdf", 2048, 1⟩], formData := { matterOverview := " \t" },
        relevanceResults := some ⟨.arr [], .arr [], .arr [], .arr [], .arr []⟩,
        expandedFiles := [("Highly Relevant", true)] }
      (.resolved { status := 200, body := .ok "null" }) (Or.inl (by decide))).1,
   (processRelevance_preconditions refPlatform
      { uploadedFiles := [⟨"lease.pdf", 2048, 1⟩], formData := { matterOverview := " \t" },
        relevanceResults := some ⟨.arr [], .arr [], .arr [], .arr [], .arr []⟩,
        expandedFiles := [("Highly Relevant", true)] }
      (.resolved { status := 200, body := .ok "null" }) (Or.inl (by decide))).2.2.2.2.2.2.1⟩

/-! ## Expansion state -/

theorem lookupFlag_setFlag_self (k : String) (v : Bool) (m : List (String × Bool)) :
    lookupFlag k (setFlag k v m) = some v := by
  induction m with
  | nil => simp [setFlag, lookupFlag]
  | cons p rest ih =>
    obtain ⟨k1, v1⟩ := p
    by_cases h : k1 = k
    · simp [setFlag, lookupFlag, h]
    · simp [setFlag, lookupFlag, h, ih]

theorem lookupFlag_setFlag_ne (k k2 : String) (v : Bool) (m : List (String × Bool))
    (hne : k2 ≠ k) : lookupFlag k2 (setFlag k v m) = lookupFlag k2 m := by
  induction m with
  | nil =>
    have : ¬ k = k2 := fun h => hne h.symm
    simp [setFlag, lookupFlag, this]
  | cons p rest ih =>
    obtain ⟨k1, v1⟩ := p
    by_cases h : k1 = k
    · subst h
      have : ¬ k1 = k2 := fun h => hne h.symm
      simp [setFlag, lookupFlag, this]
    · by_cases h2 : k1 = k2
      · subst h2
        simp [setFlag, lookupFlag, h]
      · simp [setFlag, lookupFlag, h, h2, ih]

theorem isExpanded_setFlag_self (k : String) (v : Bool) (m : List (String × Bool)) :
    isExpanded (setFlag k v m) k = v := by
  simp [isExpanded, lookupFlag_setFlag_self]

/-- C17: `toggleFileExpand` stores for `k` the negation of its current
open/closed status, where a key not yet in the map counts as closed and so
becomes open; every other key keeps its stored value (or stays absent);
toggling the same key twice restores its open/closed status; no other part of
the state changes. -/
theorem toggleFileExpand_spec (s : AppState) (k : String) :
    toggleFileExpand s k
        = { s with expandedFiles :=
              setFlag k (!(isExpanded s.expandedFiles k)) s.expandedFiles }
    ∧ lookupFlag k (toggleFileExpand s k).expandedFiles
        = some (!(isExpanded s.expandedFiles k))
    ∧ isExpanded (toggleFileExpand s k).expandedFiles k = !(isExpanded s.expandedFiles k)
    ∧ (lookupFlag k s.expandedFiles = none →
        isExpanded s.expandedFiles k = false
        ∧ lookupFlag k (toggleFileExpand s k).expandedFiles = some true)
    ∧ (∀ k2, k2 ≠ k →
        lookupFlag k2 (toggleFileExpand s k).expandedFiles = lookupFlag k2 s.expandedFiles)
    ∧ (∀ k2, k2 ≠ k →
        isExpanded (toggleFileExpand s k).expandedFiles k2 = isExpanded s.expandedFiles k2)
    ∧ isExpanded (toggleFileExpand (toggleFileExpand s k) k).expandedFiles k
        = isExpanded s.expandedFiles k := by
  have h2 : lookupFlag k (toggleFileExpand s k).expandedFiles
      = some (!(isExpanded s.expandedFiles k)) := lookupFlag_setFlag_self _ _ _
  have h3 : isExpanded (toggleFileExpand s k).expandedFiles k
      = !(isExpanded s.expandedFiles k) := isExpanded_setFlag_self _ _ _
  refine ⟨rfl, h2, h3, ?_, ?_, ?_, ?_⟩
  · intro hnone
    have hclosed : isExpanded s.expandedFiles k = false := by
      simp [isExpanded, hnone]
    refine ⟨hclosed, ?_⟩
    rw [h2, hclosed]
    rfl
  · intro k2 hne
    exact lookupFlag_setFlag_ne _ _ _ _ hne
  · intro k2 hne
    unfold isExpanded
    rw [show lookupFlag k2 (toggleFileExpand s k).expandedFiles = lookupFlag k2 s.expandedFiles
      from lookupFlag_setFlag_ne _ _ _ _ hne]
  · have h4 : isExpanded (toggleFileExpand (toggleFileExpand s k) k).expandedFiles k
        = !(isExpanded (toggleFileExpand s k).expandedFiles k) :=
      isExpanded_setFlag_self _ _ _
    rw [h4, h3]
    simp

theorem toggleFileExpand_spec_witness :
    lookupFlag "Highly Relevant"
        (toggleFileExpand { expandedFiles := [("Failed to Process", true)] }
          "Highly Relevant").expandedFiles = some true
    ∧ lookupFlag "Failed to Process"
        (toggleFileExpand { expandedFiles := [("Failed to Process", true)] }
          "Highly Relevant").expandedFiles = some true
    ∧ isExpanded (toggleFileExpand (toggleFileExpand
          { expandedFiles := [("Failed to Process", true)] } "Highly Relevant")
          "Highly Relevant").expandedFiles "Highly Relevant" = false :=
  ⟨((toggleFileExpand_spec { expandedFiles := [("Failed to Process", true)] }
      "Highly Relevant").2.2.2.1 rfl).2,
   (toggleFileExpand_spec { expandedFiles := [("Failed to Process", true)] }
      "Highly Relevant").2.2.2.2.1 "Failed to Process" (by decide),
   (toggleFileExpand_spec { expandedFiles := [("Failed to Process", true)] }
      "Highly Relevant").2.2.2.2.2.2⟩

/-! ## Transcript export -/

theorem intercalate_go_append (sep acc x : String) (l : List String) :
    String.intercalate.go (acc ++ x) sep l = acc ++ String.intercalate.go x sep l := by
  induction l generalizing x with
  | nil => rfl
  | cons a rest ih =>
    simp only [String.intercalate.go]
    rw [String.append_assoc acc x sep, String.append_assoc acc (x ++ sep) a, ih]

theorem intercalate_cons_cons (sep a b : String) (rest : List String) :
    sep.intercalate (a :: b :: rest) = a ++ sep ++ sep.intercalate (b :: rest) := by
  simp only [String.intercalate, String.intercalate.go]
  rw [intercalate_go_append]

theorem jsJoin_strings (P : Platform) (sep : String) (ls : List String) :
    jsJoin P sep (ls.map JsVal.str) = .ok (sep.intercalate ls) := by
  induction ls with
  | nil => simp [jsJoin, String.intercalate]
  | cons a rest ih =>
    cases rest with
    | nil => simp [jsJoin, jsJoinElem, String.intercalate, String.intercalate.go]
    | cons b rest2 =>
      simp only [List.map_cons] at ih ⊢
      rw [jsJoin, ih]
      simp [jsJoinElem, intercalate_cons_cons]

theorem messageLines_record (P : Platform) (hup : ∀ s, P.toUpperCase s = "" ↔ s = "")
    (m : JsVal) (hm : isChatRecord m = true) :
    messageLines P m = .ok ((specMessageLines P m).map JsVal.str) := by
  cases m with
  | obj fields =>
    simp only [isChatRecord, Bool.and_eq_true] at hm
    obtain ⟨hr, hc⟩ := hm
    have hrole : callToUpperCase P ((JsVal.lookupField "role" fields).or (.str ""))
        = .ok (P.toUpperCase (JsVal.lookupField "role" fields).textOrEmpty) := by
      cases hl : JsVal.lookupField "role" fields with
      | str s =>
        by_cases hs : s = ""
        · simp [JsVal.or, JsVal.truthy, callToUpperCase, JsVal.textOrEmpty, hs]
        · simp [JsVal.or, JsVal.truthy, callToUpperCase, JsVal.textOrEmpty, hs]
      | undefined => simp [JsVal.or, JsVal.truthy, callToUpperCase, JsVal.textOrEmpty]
      | null => simp [JsVal.or, JsVal.truthy, callToUpperCase, JsVal.textOrEmpty]
      | bool b => simp [hl, JsVal.isTextOrMissing] at hr
      | num x => simp [hl, JsVal.isTextOrMissing] at hr
      | arr xs => simp [hl, JsVal.isTextOrMissing] at hr
      | obj fs => simp [hl, JsVal.isTextOrMissing] at hr
    have hlabel : (JsVal.str (P.toUpperCase (JsVal.lookupField "role" fields).textOrEmpty)).or
          (.str "MESSAGE")
        = .str (if (JsVal.lookupField "role" fields).textOrEmpty = "" then "MESSAGE"
            else P.toUpperCase (JsVal.lookupField "role" fields).textOrEmpty) := by
      by_cases he : (JsVal.lookupField "role" fields).textOrEmpty = ""
      · have hu := (hup _).mpr he
        rw [if_pos he, hu]
        rfl
      · have hu : P.toUpperCase (JsVal.lookupField "role" fields).textOrEmpty ≠ "" :=
          fun h0 => he ((hup _).mp h0)
        rw [if_neg he]
        simp [JsVal.or, JsVal.truthy, hu]
    have hcontent : (JsVal.lookupField "content" fields).or (.str "")
        = .str (JsVal.lookupField "content" fields).textOrEmpty := by
      cases hl : JsVal.lookupField "content" fields with
      | str s =>
        by_cases hs : s = ""
        · simp [JsVal.or, JsVal.truthy, JsVal.textOrEmpty, hs]
        · simp [JsVal.or, JsVal.truthy, JsVal.textOrEmpty, hs]
      | undefined => simp [JsVal.or, JsVal.truthy, JsVal.textOrEmpty]
      | null => simp [JsVal.or, JsVal.truthy, JsVal.textOrEmpty]
      | bool b => simp [hl, JsVal.isTextOrMissing] at hc
      | num x => simp [hl, JsVal.isTextOrMissing] at hc
      | arr xs => simp [hl, JsVal.isTextOrMissing] at hc
      | obj fs => simp [hl, JsVal.isTextOrMissing] at hc
    simp only [messageLines, Platform.getProp, JsVal.nullish, JsVal.get, specMessageLines]
    simp only [Bool.false_eq_true, if_false]
    rw [hrole]
    simp only [hlabel, hcontent, List.map_cons, List.map_nil]
  | undefined => simp [isChatRecord] at hm
  | null => simp [isChatRecord] at hm
  | bool b => simp [isChatRecord] at hm
  | num x => simp [isChatRecord] at hm
  | str s => simp [isChatRecord] at hm
  | arr xs => simp [isChatRecord] at hm

theorem transcriptBody_records (P : Platform) (hup : ∀ s, P.toUpperCase s = "" ↔ s = "")
    (msgs : List JsVal) (hmsgs : ∀ m ∈ msgs, isChatRecord m = true) :
    transcriptBody P msgs = .ok ((msgs.flatMap (specMessageLines P)).map JsVal.str) := by
  induction msgs with
  | nil => simp [transcriptBody]
  | cons m rest ih =>
    have h1 := messageLines_record P hup m (hmsgs m (by simp))
    have h2 := ih (fun x hx => hmsgs x (by simp [hx]))
    simp [transcriptBody, h1, h2]

theorem length_flatMap_specMessageLines (P : Platform) (msgs : List JsVal) :
    (msgs.flatMap (specMessageLines P)).length = 5 * msgs.length := by
  induction msgs with
  | nil => rfl
  | cons m rest ih =>
    simp only [List.flatMap_cons, List.length_append, ih, List.length_cons]
    simp [specMessageLines]
    omega

theorem refToUpperCase_empty_iff (s : String) : refPlatform.toUpperCase s = "" ↔ s = "" := by
  show s.map Char.toUpper = "" ↔ s = ""
  rw [String.map_eq]
  constructor
  · intro h
    have hd := congrArg String.data h
    simp only [List.map_eq_nil_iff] at hd
    cases s
    simp_all
  · intro h
    subst h
    rfl

/-- C16: for every export timestamp and every history of message records
(objects whose `role` and `content`, when present, are text), on a platform
whose `toUpperCase` maps exactly the empty text to the empty text,
`toChatTranscript` returns the lines joined by newlines: the four header lines
`ExportedAt: t`, empty, `---- CHAT TRANSCRIPT ----`, empty, then for each
message in history order its upper-cased role (`MESSAGE` when the role is
missing or empty), its content (empty when missing), empty, `----`, empty.
These are `4 + 5n` lines; for the empty history the transcript is the four
header lines alone; and `handleSaveChats` hands exactly this text to
`saveTextAsFile`. -/
theorem toChatTranscript_spec (P : Platform) (t : String) (msgs : List JsVal)
    (hup : ∀ s, P.toUpperCase s = "" ↔ s = "")
    (hmsgs : ∀ m ∈ msgs, isChatRecord m = true) :
    toChatTranscript P t msgs = .ok ("\n".intercalate (specTranscriptLines P t msgs))
    ∧ transcriptLines P t msgs = .ok ((specTranscriptLines P t msgs).map JsVal.str)
    ∧ specTranscriptLines P t msgs
        = ["ExportedAt: " ++ t, "", "---- CHAT TRANSCRIPT ----", ""]
          ++ msgs.flatMap (fun m =>
              [if (m.get "role").textOrEmpty = "" then "MESSAGE"
                 else P.toUpperCase (m.get "role").textOrEmpty,
               (m.get "content").textOrEmpty, "", "----", ""])
    ∧ (specTranscriptLines P t msgs).length = 4 + 5 * msgs.length
    ∧ toChatTranscript P t []
        = .ok ("\n".intercalate ["ExportedAt: " ++ t, "", "---- CHAT TRANSCRIPT ----", ""])
    ∧ (∀ w : World, w.state.qaMessages = msgs →
        (handleSaveChats P t w).2
          = some { filename := "chats-" ++ replaceColonDot t ++ ".txt",
                   text := "\n".intercalate (specTranscriptLines P t msgs) }) := by
  have hbody := transcriptBody_records P hup msgs hmsgs
  have hlines : transcriptLines P t msgs = .ok ((specTranscriptLines P t msgs).map JsVal.str) := by
    simp [transcriptLines, hbody, specTranscriptLines]
  have htext : toChatTranscript P t msgs
      = .ok ("\n".intercalate (specTranscriptLines P t msgs)) := by
    simp only [toChatTranscript, hlines]
    exact jsJoin_strings P "\n" _
  have hempty : toChatTranscript P t []
      = .ok ("\n".intercalate ["ExportedAt: " ++ t, "", "---- CHAT TRANSCRIPT ----", ""]) := by
    simp only [toChatTranscript, transcriptLines, transcriptBody, List.append_nil]
    exact jsJoin_strings P "\n" ["ExportedAt: " ++ t, "", "---- CHAT TRANSCRIPT ----", ""]
  refine ⟨htext, hlines, rfl, ?_, hempty, ?_⟩
  · simp only [specTranscriptLines, List.length_append, length_flatMap_specMessageLines]
    rfl
  · intro w hw
    simp [handleSaveChats, hw, htext]

theorem toChatTranscript_spec_witness :
    toChatTranscript refPlatform "2026-01-02T03:04:05.678Z"
        [.obj [("role", .str "user"), ("content", .str "Q1")],
         .obj [("content", .str "no role")]]
      = .ok "ExportedAt: 2026-01-02T03:04:05.678Z\n\n---- CHAT TRANSCRIPT ----\n\nUSER\nQ1\n\n----\n\nMESSAGE\nno role\n\n----\n" :=
  (toChatTranscript_spec refPlatform "2026-01-02T03:04:05.678Z"
      [.obj [("role", .str "user"), ("content", .str "Q1")],
       .obj [("content", .str "no role")]]
      refToUpperCase_empty_iff (by decide)).1.trans
    (congrArg Except.ok (by
      simp only [specTranscriptLines, specMessageLines, refPlatform, String.map_eq]
      decide))

/-! ## Case analysis: a successful response -/

theorem or_empty_text (v : JsVal) (h : v.isTextOrMissing = true) :
    ∃ s, v.or (.str "") = .str s := by
  cases v with
  | str s =>
    by_cases hs : s = ""
    · exact ⟨"", by simp [JsVal.or, JsVal.truthy, hs]⟩
    · exact ⟨s, by simp [JsVal.or, JsVal.truthy, hs]⟩
  | undefined => exact ⟨"", rfl⟩
  | null => exact ⟨"", rfl⟩
  | bool b => simp [JsVal.isTextOrMissing] at h
  | num x => simp [JsVal.isTextOrMissing] at h
  | arr xs => simp [JsVal.isTextOrMissing] at h
  | obj fs => simp [JsVal.isTextOrMissing] at h

theorem riskBadgeColor_text (P : Platform) (v : JsVal) (h : v.isTextOrMissing = true) :
    ∃ c, riskBadgeColor P v = .ok c := by
  obtain ⟨s, hs⟩ := or_empty_text v h
  unfold riskBadgeColor
  rw [hs]
  simp only [callToLowerCase]
  split
  · exact ⟨_, rfl⟩
  · split
    · exact ⟨_, rfl⟩
    · split
      · exact ⟨_, rfl⟩
      · exact ⟨_, rfl⟩

theorem jsToString_text (P : Platform) (v : JsVal) (h : v.isTextOrMissing = true) :
    ∃ s, jsToString P v = .ok s := by
  cases v with
  | str s => exact ⟨s, by simp [jsToString]⟩
  | undefined => exact ⟨"undefined", by simp [jsToString]⟩
  | null => exact ⟨"null", by simp [jsToString]⟩
  | bool b => simp [JsVal.isTextOrMissing] at h
  | num x => simp [JsVal.isTextOrMissing] at h
  | arr xs => simp [JsVal.isTextOrMissing] at h
  | obj fs => simp [JsVal.isTextOrMissing] at h

theorem renderIssue_record (P : Platform) (x : JsVal) (h : isIssueRecord x = true) :
    renderIssue P x = .ok () := by
  cases x with
  | obj fields =>
    simp only [isIssueRecord, List.all_cons, List.all_nil, Bool.and_true,
      Bool.and_eq_true] at h
    obtain ⟨_, hrisk, _, hlabel, _⟩ := h
    obtain ⟨c, hc⟩ := riskBadgeColor_text P _ hrisk
    obtain ⟨l, hl⟩ := jsToString_text P _ hlabel
    simp only [renderIssue, Platform.getProp, JsVal.nullish, JsVal.get, hc, hl,
      Bool.false_eq_true, if_false]
    by_cases hg : ((JsVal.lookupField "categoryGroup" fields).truthy
        && (JsVal.lookupField "categoryLabel" fields).truthy) = true
    · simp only [hg, if_true]
    · simp only [hg, Bool.false_eq_true, if_false]
  | undefined => simp [isIssueRecord] at h
  | null => simp [isIssueRecord] at h
  | bool b => simp [isIssueRecord] at h
  | num n => simp [isIssueRecord] at h
  | str s => simp [isIssueRecord] at h
  | arr xs => simp [isIssueRecord] at h

theorem renderIssues_records (P : Platform) (xs : List JsVal)
    (h : xs.all isIssueRecord = true) : renderIssues P xs = .ok () := by
  induction xs with
  | nil => rfl
  | cons x rest ih =>
    simp only [List.all_cons, Bool.and_eq_true] at h
    simp [renderIssues, renderIssue_record P x h.1, ih h.2]

theorem renderResultPanel_falsy (P : Platform) (d : JsVal) (h : d.truthy = false) :
    renderResultPanel P d = .ok none := by
  simp [renderResultPanel, h]

theorem gtZero_length (xs : List JsVal) :
    (JsNum.finite (xs.length : Rat)).gtZero = !xs.isEmpty := by
  cases xs with
  | nil => simp [JsNum.gtZero]
  | cons x rest =>
    have : (0 : Rat) < ((rest.length : Rat) + 1) := by positivity
    simp [JsNum.gtZero, this]

theorem renderResultPanel_analysisResult (P : Platform) (d : JsVal)
    (h : isAnalysisResult d = true) :
    renderResultPanel P d = .ok (some (.num (.finite (issuesLength d : Rat)))) := by
  cases d with
  | obj fields =>
    simp only [isAnalysisResult, Bool.and_eq_true] at h
    obtain ⟨_, hi⟩ := h
    have ht : (JsVal.obj fields).truthy = true := rfl
    cases hl : JsVal.lookupField "issues" fields with
    | arr xs =>
      rw [hl] at hi
      have hr := renderIssues_records P xs hi
      have hcount : displayedIssueCount (.obj fields)
          = some (.num (.finite (xs.length : Rat))) := by
        simp [displayedIssueCount, JsVal.truthy, JsVal.get, hl, JsVal.nullish, length_or_zero]
      have hlen : issuesLength (.obj fields) = xs.length := by
        simp [issuesLength, JsVal.get, hl]
      simp only [renderResultPanel, ht, JsVal.get, hl, jsGtZero, gtZero_length, hr, hcount,
        hlen]
      cases xs <;> simp [JsVal.truthy]
    | undefined =>
      simp [renderResultPanel, JsVal.truthy, JsVal.get, hl, displayedIssueCount,
        JsVal.nullish, JsVal.or, issuesLength]
    | null =>
      simp [renderResultPanel, JsVal.truthy, JsVal.get, hl, displayedIssueCount,
        JsVal.nullish, JsVal.or, issuesLength]
    | bool b => simp [hl] at hi
    | num x => simp [hl] at hi
    | str x => simp [hl] at hi
    | obj fs => simp [hl] at hi
  | undefined => simp [isAnalysisResult] at h
  | null => simp [isAnalysisResult] at h
  | bool b => simp [isAnalysisResult] at h
  | num n => simp [isAnalysisResult] at h
  | str s => simp [isAnalysisResult] at h
  | arr xs => simp [isAnalysisResult] at h

/-- C4 as stated fails.  For the 200 body `null` the result becomes `null`,
the block `result && (...)` is not rendered and no issue count is shown at
all, although `issues` is absent and the claim asks for the count 0.  For the
200 body with `issues` equal to `[null]` the result becomes that object, and
building the issue card throws on `issue.title`. -/
theorem handleSubmit_success_counterexample :
    (handleSubmit refPlatform
        { uploadedFiles := [⟨"lease.pdf", 2048, 1⟩],
          formData := { matterOverview := "Lease dispute" } }
        (.resolved { status := 200, body := .ok "null" })).1.result = .null
    ∧ renderResultPanel refPlatform (handleSubmit refPlatform
        { uploadedFiles := [⟨"lease.pdf", 2048, 1⟩],
          formData := { matterOverview := "Lease dispute" } }
        (.resolved { status := 200, body := .ok "null" })).1.result = .ok none
    ∧ renderResultPanel refPlatform (handleSubmit refPlatform
        { uploadedFiles := [⟨"lease.pdf", 2048, 1⟩],
          formData := { matterOverview := "Lease dispute" } }
        (.resolved { status := 200, body := .ok "null" })).1.result
      ≠ .ok (some (.num (.finite 0)))
    ∧ (handleSubmit refPlatform
        { uploadedFiles := [⟨"lease.pdf", 2048, 1⟩],
          formData := { matterOverview := "Lease dispute" } }
        (.resolved { status := 200,
                     body := .ok (Ref.stringify (.obj [("issues", .arr [.null])])) })).1.result
      = .obj [("issues", .arr [.null])]
    ∧ renderResultPanel refPlatform (handleSubmit refPlatform
        { uploadedFiles := [⟨"lease.pdf", 2048, 1⟩],
          formData := { matterOverview := "Lease dispute" } }
        (.resolved { status := 200,
                     body := .ok (Ref.stringify (.obj [("issues", .arr [.null])])) })).1.result
      = .error ⟨"Cannot use property title"⟩ := by
  have h1 : (handleSubmit refPlatform
        { uploadedFiles := [⟨"lease.pdf", 2048, 1⟩],
          formData := { matterOverview := "Lease dispute" } }
        (.resolved { status := 200, body := .ok "null" })).1.result = .null := rfl
  have h2 : (handleSubmit refPlatform
        { uploadedFiles := [⟨"lease.pdf", 2048, 1⟩],
          formData := { matterOverview := "Lease dispute" } }
        (.resolved { status := 200,
                     body := .ok (Ref.stringify (.obj [("issues", .arr [.null])])) })).1.result
      = .obj [("issues", .arr [.null])] := rfl
  refine ⟨h1, ?_, ?_, h2, ?_⟩
  · rw [h1]
    rfl
  · rw [h1]
    intro h
    cases h
  · rw [h2]
    simp [renderResultPanel, JsVal.truthy, JsVal.get, JsVal.lookupField, jsGtZero,
      JsNum.gtZero, renderIssues, renderIssue, Platform.getProp, JsVal.nullish, refPlatform]

/-- C4, amended: when both submit preconditions hold and the service answers
with a success status and a body that parses to `d`, then after `handleSubmit`
the result is exactly `d` (whatever the earlier result was), the analysis
error is empty, the loading flag is off, staged documents and metadata (and
all other state) are unchanged, and one request was issued.  When `d` is an
analysis result (an object whose `analysis`, if present, is text and whose
`issues`, if present, is a sequence of issue records), the result panel shows
the issue count `d.issues.length`, 0 when `issues` is empty or absent.  When
`d` is falsy (`null`, `false`, 0, the empty text) the result panel is not
rendered and no issue count is shown. -/
theorem handleSubmit_success (P : Platform) (s : AppState) (res : Response) (t : String)
    (d : JsVal) (hdocs : s.uploadedFiles ≠ []) (hov : ¬ isBlank s.formData.matterOverview)
    (hok : res.ok = true) (hbody : res.body = .ok t) (hparse : P.jsonParse t = .ok d) :
    (handleSubmit P s (.resolved res)).1
        = { s with errorMsg := none, isLoading := false, result := d }
    ∧ (handleSubmit P s (.resolved res)).1.result = d
    ∧ (handleSubmit P s (.resolved res)).1.errorMsg = none
    ∧ (handleSubmit P s (.resolved res)).1.isLoading = false
    ∧ (handleSubmit P s (.resolved res)).1.uploadedFiles = s.uploadedFiles
    ∧ (handleSubmit P s (.resolved res)).1.formData = s.formData
    ∧ (handleSubmit P s (.resolved res)).2.length = 1
    ∧ (isAnalysisResult d = true →
        renderResultPanel P (handleSubmit P s (.resolved res)).1.result
          = .ok (some (.num (.finite (issuesLength d : Rat)))))
    ∧ (∀ xs, isAnalysisResult d = true → d.get "issues" = .arr xs →
        renderResultPanel P (handleSubmit P s (.resolved res)).1.result
          = .ok (some (.num (.finite (xs.length : Rat)))))
    ∧ (isAnalysisResult d = true → (d.get "issues").nullish = true →
        renderResultPanel P (handleSubmit P s (.resolved res)).1.result
          = .ok (some (.num (.finite 0))))
    ∧ (d.truthy = false →
        renderResultPanel P (handleSubmit P s (.resolved res)).1.result = .ok none) := by
  have hj : res.json P = .ok d := by
    simp [Response.json, hbody, hparse]
  have hh : (handleSubmit P s (.resolved res)).1
      = { s with errorMsg := none, isLoading := false, result := d } := by
    simp [handleSubmit, handleSubmitStart_valid P s hdocs hov, handleSubmitFinish, hok, hj]
  have hl : (handleSubmit P s (.resolved res)).2.length = 1 := by
    simp [handleSubmit, handleSubmitStart_valid P s hdocs hov]
  have hres : (handleSubmit P s (.resolved res)).1.result = d := by
    rw [hh]
  refine ⟨hh, hres, ?_, ?_, ?_, ?_, hl, ?_, ?_, ?_, ?_⟩
  · rw [hh]
  · rw [hh]
  · rw [hh]
  · rw [hh]
  · intro hd
    rw [hres]
    exact renderResultPanel_analysisResult P d hd
  · intro xs hd hi
    rw [hres, renderResultPanel_analysisResult P d hd]
    simp [issuesLength, hi]
  · intro hd hi
    rw [hres, renderResultPanel_analysisResult P d hd]
    have : issuesLength d = 0 := by
      unfold issuesLength
      cases hg : d.get "issues" <;> simp [hg, JsVal.nullish] at hi ⊢
    simp [this]
  · intro hd
    rw [hres]
    exact renderResultPanel_falsy P d hd

theorem handleSubmit_success_witness :
    (handleSubmit refPlatform
        { uploadedFiles := [⟨"lease.pdf", 2048, 1⟩],
          formData := { matterOverview := "Lease dispute" },
          result := .obj [("analysis", .str "old"), ("issues", .arr [])] }
        (.resolved { status := 200,
                     body := .ok (Ref.stringify
                       (.obj [("analysis", .str "A"),
                              ("issues", .arr [.obj [("title", .str "Late notice"),
                                                     ("riskLevel", .str "High")]])])) })).1.result
      = .obj [("analysis", .str "A"),
              ("issues", .arr [.obj [("title", .str "Late notice"),
                                     ("riskLevel", .str "High")]])]
    ∧ renderResultPanel refPlatform (handleSubmit refPlatform
        { uploadedFiles := [⟨"lease.pdf", 2048, 1⟩],
          formData := { matterOverview := "Lease dispute" },
          result := .obj [("analysis", .str "old"), ("issues", .arr [])] }
        (.resolved { status := 200,
                     body := .ok (Ref.stringify
                       (.obj [("analysis", .str "A"),
                              ("issues", .arr [.obj [("title", .str "Late notice"),
                                                     ("riskLevel", .str "High")]])])) })).1.result
      = .ok (some (.num (.finite ((1 : Nat) : Rat)))) :=
  ⟨(handleSubmit_success refPlatform
      { uploadedFiles := [⟨"lease.pdf", 2048, 1⟩],
        formData := { matterOverview := "Lease dispute" },
        result := .obj [("analysis", .str "old"), ("issues", .arr [])] }
      { status := 200,
        body := .ok (Ref.stringify
          (.obj [("analysis", .str "A"),
                 ("issues", .arr [.obj [("title", .str "Late notice"),
                                        ("riskLevel", .str "High")]])])) }
      (Ref.stringify
          (.obj [("analysis", .str "A"),
                 ("issues", .arr [.obj [("title", .str "Late notice"),
                                        ("riskLevel", .str "High")]])]))
      (.obj [("analysis", .str "A"),
             ("issues", .arr [.obj [("title", .str "Late notice"),
                                    ("riskLevel", .str "High")]])])
      (by decide) (by decide) (by decide) rfl rfl).2.1,
   (handleSubmit_success refPlatform
      { uploadedFiles := [⟨"lease.pdf", 2048, 1⟩],
        formData := { matterOverview := "Lease dispute" },
        result := .obj [("analysis", .str "old"), ("issues", .arr [])] }
      { status := 200,
        body := .ok (Ref.stringify
          (.obj [("analysis", .str "A"),
                 ("issues", .arr [.obj [("title", .str "Late notice"),
                                        ("riskLevel", .str "High")]])])) }
      (Ref.stringify
          (.obj [("analysis", .str "A"),
                 ("issues", .arr [.obj [("title", .str "Late notice"),
                                        ("riskLevel", .str "High")]])]))
      (.obj [("analysis", .str "A"),
             ("issues", .arr [.obj [("title", .str "Late notice"),
                                    ("riskLevel", .str "High")]])])
      (by decide) (by decide) (by decide) rfl rfl).2.2.2.2.2.2.2.1 rfl⟩

theorem processRelevance_buckets (P : Platform) (s : AppState) (res : Response) (t : String)
    (d : JsVal) (hov : ¬ isBlank s.formData.matterOverview) (hdocs : s.uploadedFiles ≠ [])
    (hok : res.ok = true) (hbody : res.body = .ok t) (hparse : P.jsonParse t = .ok d)
    (hd : d.nullish = false) :
    ∃ r, (processRelevance P s (.resolved res)).1.relevanceResults = some r
      ∧ r = { highlyRelevant := (d.get "highlyRelevant").or (.arr []),
              partiallyRelevant := (d.get "partiallyRelevant").or (.arr []),
              lessRelevant := (d.get "lessRelevant").or (.arr []),
              notRelevant := (d.get "notRelevant").or (.arr []),
              failed := (d.get "failed").or (.arr []) }
      ∧ (∀ xs, d.get "highlyRelevant" = .arr xs → r.highlyRelevant = .arr xs)
      ∧ (∀ xs, d.get "partiallyRelevant" = .arr xs → r.partiallyRelevant = .arr xs)
      ∧ (∀ xs, d.get "lessRelevant" = .arr xs → r.lessRelevant = .arr xs)
      ∧ (∀ xs, d.get "notRelevant" = .arr xs → r.notRelevant = .arr xs)
      ∧ (∀ xs, d.get "failed" = .arr xs → r.failed = .arr xs)
      ∧ (d.get "highlyRelevant" = .undefined → r.highlyRelevant = .arr [])
      ∧ (d.get "partiallyRelevant" = .undefined → r.partiallyRelevant = .arr [])
      ∧ (d.get "lessRelevant" = .undefined → r.lessRelevant = .arr [])
      ∧ (d.get "notRelevant" = .undefined → r.notRelevant = .arr [])
      ∧ (d.get "failed" = .undefined → r.failed = .arr [])
      ∧ r.highlyRelevant ≠ .undefined ∧ r.partiallyRelevant ≠ .undefined
      ∧ r.lessRelevant ≠ .undefined ∧ r.notRelevant ≠ .undefined ∧ r.failed ≠ .undefined
      ∧ (processRelevance P s (.resolved res)).1.relevanceError = none
      ∧ (processRelevance P s (.resolved res)).1.isRelevanceLoading = false
      ∧ (processRelevance P s (.resolved res)).2.length = 1 := by
  have hj : res.json P = .ok d := by
    simp [Response.json, hbody, hparse]
  have hrep : relevanceReply P (.resolved res)
      = .ok { highlyRelevant := (d.get "highlyRelevant").or (.arr []),
              partiallyRelevant := (d.get "partiallyRelevant").or (.arr []),
              lessRelevant := (d.get "lessRelevant").or (.arr []),
              notRelevant := (d.get "notRelevant").or (.arr []),
              failed := (d.get "failed").or (.arr []) } := by
    simp [relevanceReply, hok, hj, relevanceBuckets, hd]
  have hh : (processRelevance P s (.resolved res)).1
      = { s with isRelevanceLoading := false, relevanceError := none, expandedFiles := [],
                 relevanceResults := some
                   { highlyRelevant := (d.get "highlyRelevant").or (.arr []),
                     partiallyRelevant := (d.get "partiallyRelevant").or (.arr []),
                     lessRelevant := (d.get "lessRelevant").or (.arr []),
                     notRelevant := (d.get "notRelevant").or (.arr []),
                     failed := (d.get "failed").or (.arr []) } } := by
    simp [processRelevance, processRelevanceStart_valid P s hov hdocs, processRelevanceFinish,
      hrep]
  have hl : (processRelevance P s (.resolved res)).2.length = 1 := by
    simp [processRelevance, processRelevanceStart_valid P s hov hdocs]
  refine ⟨_, by rw [hh], rfl, ?_, ?_, ?_, ?_, ?_, ?_, ?_, ?_, ?_, ?_, ?_, ?_, ?_, ?_, ?_, ?_, ?_, hl⟩
  · exact fun xs h => or_empty_of_arr _ xs h
  · exact fun xs h => or_empty_of_arr _ xs h
  · exact fun xs h => or_empty_of_arr _ xs h
  · exact fun xs h => or_empty_of_arr _ xs h
  · exact fun xs h => or_empty_of_arr _ xs h
  · exact fun h => or_empty_of_nullish _ (by rw [h]; rfl)
  · exact fun h => or_empty_of_nullish _ (by rw [h]; rfl)
  · exact fun h => or_empty_of_nullish _ (by rw [h]; rfl)
  · exact fun h => or_empty_of_nullish _ (by rw [h]; rfl)
  · exact fun h => or_empty_of_nullish _ (by rw [h]; rfl)
  · exact or_empty_ne_undefined _
  · exact or_empty_ne_undefined _
  · exact or_empty_ne_undefined _
  · exact or_empty_ne_undefined _
  · exact or_empty_ne_undefined _
  · rw [hh]
  · rw [hh]

theorem processRelevance_null_body (P : Platform) (s : AppState) (res : Response)
    (t : String) (d : JsVal) (hov : ¬ isBlank s.formData.matterOverview)
    (hdocs : s.uploadedFiles ≠ []) (hok : res.ok = true) (hbody : res.body = .ok t)
    (hparse : P.jsonParse t = .ok d) (hd : d.nullish = true) :
    (processRelevance P s (.resolved res)).1
      = { s with isRelevanceLoading := false, expandedFiles := [], relevanceResults := none,
                 relevanceError := some (strOr (P.typeErrorMessage "highlyRelevant")
                   "Something went wrong while getting relevance results.") } := by
  have hj : res.json P = .ok d := by
    simp [Response.json, hbody, hparse]
  have hrep : relevanceReply P (.resolved res)
      = .error ⟨P.typeErrorMessage "highlyRelevant"⟩ := by
    simp [relevanceReply, hok, hj, relevanceBuckets, hd]
  simp [processRelevance, processRelevanceStart_valid P s hov hdocs, processRelevanceFinish,
    hrep]

/-- C14 as stated fails: for the 200 body `null` reading `data.highlyRelevant`
throws, so no relevance result is stored (the slot stays cleared) and the
relevance error is set instead. -/
theorem processRelevance_success_counterexample :
    refPlatform.jsonParse "null" = .ok .null
    ∧ (processRelevance refPlatform
        { uploadedFiles := [⟨"lease.pdf", 2048, 1⟩],
          formData := { matterOverview := "Lease dispute" } }
        (.resolved { status := 200, body := .ok "null" })).1.relevanceResults = none
    ∧ (processRelevance refPlatform
        { uploadedFiles := [⟨"lease.pdf", 2048, 1⟩],
          formData := { matterOverview := "Lease dispute" } }
        (.resolved { status := 200, body := .ok "null" })).1.relevanceError
      = some "Cannot use property highlyRelevant" := by
  have hh := processRelevance_null_body refPlatform
    { uploadedFiles := [⟨"lease.pdf", 2048, 1⟩],
      formData := { matterOverview := "Lease dispute" } }
    { status := 200, body := .ok "null" } "null" .null (by decide) (by decide) (by decide)
    rfl rfl rfl
  refine ⟨rfl, ?_, ?_⟩
  · rw [hh]
  · rw [hh]
    show some (strOr (refPlatform.typeErrorMessage "highlyRelevant") _) = _
    decide

/-- C14, amended: when both preconditions hold and the service answers with a
success status and a body that parses to `d`, then: if `d` is not `null`, the
stored relevance result has the five buckets `highlyRelevant`,
`partiallyRelevant`, `lessRelevant`, `notRelevant` and `failed`, each equal to
`d.bucket || []`, so a bucket the response supplies as an array is stored as
given, a bucket the response omits is stored as the empty array, and no bucket
is `undefined`; the relevance error is empty.  If `d` is `null`, reading the
first bucket throws: no relevance result is stored and the relevance error is
set to a non-empty text.  In both cases the checking flag is off again and one
request was issued. -/
theorem processRelevance_success (P : Platform) (s : AppState) (res : Response) (t : String)
    (d : JsVal) (hov : ¬ isBlank s.formData.matterOverview) (hdocs : s.uploadedFiles ≠ [])
    (hok : res.ok = true) (hbody : res.body = .ok t) (hparse : P.jsonParse t = .ok d) :
    (d.nullish = false →
      ∃ r, (processRelevance P s (.resolved res)).1.relevanceResults = some r
        ∧ r = { highlyRelevant := (d.get "highlyRelevant").or (.arr []),
                partiallyRelevant := (d.get "partiallyRelevant").or (.arr []),
                lessRelevant := (d.get "lessRelevant").or (.arr []),
                notRelevant := (d.get "notRelevant").or (.arr []),
                failed := (d.get "failed").or (.arr []) }
        ∧ (∀ xs, d.get "highlyRelevant" = .arr xs → r.highlyRelevant = .arr xs)
        ∧ (∀ xs, d.get "partiallyRelevant" = .arr xs → r.partiallyRelevant = .arr xs)
        ∧ (∀ xs, d.get "lessRelevant" = .arr xs → r.lessRelevant = .arr xs)
        ∧ (∀ xs, d.get "notRelevant" = .arr xs → r.notRelevant = .arr xs)
        ∧ (∀ xs, d.get "failed" = .arr xs → r.failed = .arr xs)
        ∧ (d.get "highlyRelevant" = .undefined → r.highlyRelevant = .arr [])
        ∧ (d.get "partiallyRelevant" = .undefined → r.partiallyRelevant = .arr [])
        ∧ (d.get "lessRelevant" = .undefined → r.lessRelevant = .arr [])
        ∧ (d.get "notRelevant" = .undefined → r.notRelevant = .arr [])
        ∧ (d.get "failed" = .undefined → r.failed = .arr [])
        ∧ r.highlyRelevant ≠ .undefined ∧ r.partiallyRelevant ≠ .undefined
        ∧ r.lessRelevant ≠ .undefined ∧ r.notRelevant ≠ .undefined ∧ r.failed ≠ .undefined
        ∧ (processRelevance P s (.resolved res)).1.relevanceError = none
        ∧ (processRelevance P s (.resolved res)).1.isRelevanceLoading = false
        ∧ (processRelevance P s (.resolved res)).2.length = 1)
    ∧ (d.nullish = true →
        (processRelevance P s (.resolved res)).1.relevanceResults = none
        ∧ ∃ m, (processRelevance P s (.resolved res)).1.relevanceError = some m ∧ m ≠ "")
    ∧ (processRelevance P s (.resolved res)).1.isRelevanceLoading = false
    ∧ (processRelevance P s (.resolved res)).2.length = 1 := by
  have hl : (processRelevance P s (.resolved res)).2.length = 1 := by
    simp [processRelevance, processRelevanceStart_valid P s hov hdocs]
  refine ⟨?_, ?_, ?_, hl⟩
  · intro hd
    exact processRelevance_buckets P s res t d hov hdocs hok hbody hparse hd
  · intro hd
    rw [processRelevance_null_body P s res t d hov hdocs hok hbody hparse hd]
    exact ⟨rfl, _, rfl, strOr_ne_empty _ _ (by decide)⟩
  · by_cases hd : d.nullish = true
    · rw [processRelevance_null_body P s res t d hov hdocs hok hbody hparse hd]
    · have hd2 : d.nullish = false := by simpa using hd
      obtain ⟨r, _, _, _, _, _, _, _, _, _, _, _, _, _, _, _, _, _, _, hload, _⟩ :=
        processRelevance_buckets P s res t d hov hdocs hok hbody hparse hd2
      exact hload

theorem processRelevance_success_witness :
    Option.map (fun r => (r.highlyRelevant, r.failed))
        (processRelevance refPlatform
          { uploadedFiles := [⟨"lease.pdf", 2048, 1⟩],
            formData := { matterOverview := "Lease dispute" } }
          (.resolved { status := 200,
                       body := .ok (Ref.stringify (.obj
                         [("highlyRelevant",
                            .arr [.obj [("name", .str "lease.pdf"), ("summary", .str "S")]]),
                          ("partiallyRelevant", .arr []), ("lessRelevant", .arr []),
                          ("notRelevant", .arr [])])) })).1.relevanceResults
      = some (.arr [.obj [("name", .str "lease.pdf"), ("summary", .str "S")]], .arr []) := by
  obtain ⟨r, hr, _, h1, _, _, _, _, _, _, _, _, h2, _⟩ :=
    (processRelevance_success refPlatform
      { uploadedFiles := [⟨"lease.pdf", 2048, 1⟩],
        formData := { matterOverview := "Lease dispute" } }
      { status := 200,
        body := .ok (Ref.stringify (.obj
          [("highlyRelevant",
             .arr [.obj [("name", .str "lease.pdf"), ("summary", .str "S")]]),
           ("partiallyRelevant", .arr []), ("lessRelevant", .arr []),
           ("notRelevant", .arr [])])) }
      (Ref.stringify (.obj
          [("highlyRelevant",
             .arr [.obj [("name", .str "lease.pdf"), ("summary", .str "S")]]),
           ("partiallyRelevant", .arr []), ("lessRelevant", .arr []),
           ("notRelevant", .arr [])]))
      (.obj
          [("highlyRelevant",
             .arr [.obj [("name", .str "lease.pdf"), ("summary", .str "S")]]),
           ("partiallyRelevant", .arr []), ("lessRelevant", .arr []),
           ("notRelevant", .arr [])])
      (by decide) (by decide) (by decide) rfl rfl).1 rfl
  rw [hr, Option.map_some', h1 _ rfl, h2 rfl]

end LegalUI
